import Mathlib

/-!
Verification of the light-ray puzzle engine in `src/shooter/shooter.js`
(the second program in that file, starting at the `const halfRight` line).

The geometry is shallowly embedded over `ℝ` (the JS engine uses IEEE doubles;
we use exact reals).  2-d vectors `[x, y]` become pairs `ℝ × ℝ`.  The
game-state arithmetic (gauge) is embedded over `ℚ`, where it is exact and
decidable.  JS `undefined`-able fields (a beam's `color`, a cell spec's
`color`/`rotation`) become `Option` values, with `none` playing the role of
`undefined`; JS truthiness tests (`x ? a : b`) are modelled explicitly.
`Infinity` (used as an "absent" sentinel for the DDA step parameters) is
modelled by `Option ℝ` with `none` standing for `Infinity`.
-/

namespace Shooter

/-- `dot(v1, v2)` from shooter.js: 2-d dot product. -/
def dot (v1 v2 : ℝ × ℝ) : ℝ :=
  v1.1 * v2.1 + v1.2 * v2.2

/-- `reflect(incidentVec, normalVec)` from shooter.js:
`incident - 2*dot(incident,normal)*normal`. -/
def reflect (incidentVec normalVec : ℝ × ℝ) : ℝ × ℝ :=
  (incidentVec.1 - 2 * dot incidentVec normalVec * normalVec.1,
   incidentVec.2 - 2 * dot incidentVec normalVec * normalVec.2)

/-- `refract(incidentVec, normalVec, n1, n2)` from shooter.js: Snell's law
with the total-internal-reflection branch taken when `sin_t2 > 1`.
Returns the outgoing vector and the `isReflecting` flag. -/
noncomputable def refract (incidentVec normalVec : ℝ × ℝ) (n1 n2 : ℝ) :
    (ℝ × ℝ) × Bool :=
  let n_ratio := n1 / n2
  let cos_i := -dot normalVec incidentVec
  let sin_t2 := n_ratio * n_ratio * (1 - cos_i * cos_i)
  if 1 < sin_t2 then
    (reflect incidentVec normalVec, true)
  else
    let cos_t := Real.sqrt (1 - sin_t2)
    ((n_ratio * incidentVec.1 + (n_ratio * cos_i - cos_t) * normalVec.1,
      n_ratio * incidentVec.2 + (n_ratio * cos_i - cos_t) * normalVec.2),
     false)

/-- A vector is a unit vector: squared norm one. -/
def isUnit (v : ℝ × ℝ) : Prop :=
  v.1 * v.1 + v.2 * v.2 = 1

/-- The four unit normals `trackRays` can supply at a cell-boundary
crossing (`[-sign dx, 0]`, `[0, -sign dy]`, or the initial `[0, 1]`). -/
def axisUnit (v : ℝ × ℝ) : Prop :=
  v = (1, 0) ∨ v = (-1, 0) ∨ v = (0, 1) ∨ v = (0, -1)

end Shooter

namespace Shooter

/-- C7 helper: the reflected vector written out componentwise. -/
theorem reflect_def (d n : ℝ × ℝ) :
    reflect d n = (d.1 - 2 * dot d n * n.1, d.2 - 2 * dot d n * n.2) := rfl

/-- The `isReflecting` flag returned by `refract` is exactly the test
`sin_t2 > 1` of the source. -/
theorem refract_isReflecting (v n : ℝ × ℝ) (n1 n2 : ℝ) :
    (refract v n n1 n2).2 =
      decide (1 < n1 / n2 * (n1 / n2) * (1 - dot n v * dot n v)) := by
  unfold refract
  by_cases h : 1 < n1 / n2 * (n1 / n2) * (1 - dot n v * dot n v)
  · simp [h]
  · simp [h]

/-- On the non-TIR branch `refract` returns the standard vector form of the
refracted direction, with `isReflecting = false`. -/
theorem refract_of_not_tir (v n : ℝ × ℝ) (n1 n2 : ℝ)
    (h : ¬ 1 < n1 / n2 * (n1 / n2) * (1 - dot n v * dot n v)) :
    refract v n n1 n2 =
      ((n1 / n2 * v.1 +
          (-(n1 / n2 * dot n v) -
            Real.sqrt (1 - n1 / n2 * (n1 / n2) * (1 - dot n v * dot n v))) * n.1,
        n1 / n2 * v.2 +
          (-(n1 / n2 * dot n v) -
            Real.sqrt (1 - n1 / n2 * (n1 / n2) * (1 - dot n v * dot n v))) * n.2),
       false) := by
  unfold refract
  simp [h]

/-- On the TIR branch `refract` returns the reflected vector and
`isReflecting = true`. -/
theorem refract_of_tir (v n : ℝ × ℝ) (n1 n2 : ℝ)
    (h : 1 < n1 / n2 * (n1 / n2) * (1 - dot n v * dot n v)) :
    refract v n n1 n2 = (reflect v n, true) := by
  unfold refract
  simp [h]

/-- **C7.** For every incoming direction `d` and every unit normal `n`, the
vector returned by `reflect` flips the normal component of `d` and preserves
its squared magnitude: `dot (reflect d n) n = -(dot d n)` and
`dot (reflect d n) (reflect d n) = dot d d`. -/
theorem C7_reflect_flips_normal_preserves_norm (d n : ℝ × ℝ)
    (hn : isUnit n) :
    dot (reflect d n) n = -(dot d n) ∧
    dot (reflect d n) (reflect d n) = dot d d := by
  unfold isUnit at hn
  constructor
  · unfold reflect dot
    linear_combination (-2 * (d.1 * n.1 + d.2 * n.2)) * hn
  · unfold reflect dot
    linear_combination (4 * (d.1 * n.1 + d.2 * n.2) ^ 2) * hn

/-- Witness for C7 at `d = (3, 4)`, `n = (0, 1)`. -/
theorem C7_witness :
    isUnit ((0 : ℝ), (1 : ℝ)) ∧
    (dot (reflect (3, 4) (0, 1)) (0, 1) = -(dot (3, 4) (0, 1)) ∧
     dot (reflect (3, 4) (0, 1)) (reflect (3, 4) (0, 1)) = dot (3, 4) (3, 4)) := by
  have hu : isUnit ((0 : ℝ), (1 : ℝ)) := by unfold isUnit; norm_num
  exact ⟨hu, C7_reflect_flips_normal_preserves_norm (3, 4) (0, 1) hu⟩

/-- **C1, counterexample.** The claim asserts that for `n1 < n2` there is a
(grazing) incidence past which the TIR branch is taken.  This is false on the
code: with `n1 = 1 < 2 = n2` and unit incident/normal vectors,
`sin_t2 = (1/2)^2 * (1 - cos_i^2) ≤ 1/4` never exceeds 1, so `refract` never
returns `isReflecting = true`. -/
theorem C1_counterexample :
    ¬ ∃ v n : ℝ × ℝ, isUnit v ∧ isUnit n ∧ (refract v n 1 2).2 = true := by
  rintro ⟨v, n, -, hn, hrefl⟩
  rw [refract_isReflecting, decide_eq_true_eq] at hrefl
  have hcos : (0 : ℝ) ≤ dot n v * dot n v := mul_self_nonneg _
  nlinarith [hcos, hrefl]

/-- **C1, amended.** Total internal reflection in `refract` occurs when going
from the denser to the rarer medium, `n1 > n2` (not `n1 < n2` as claimed):
for unit incident and normal vectors with `0 < n2 < n1`, once the incidence
is beyond the critical angle (`1 - cos_i^2 > (n2/n1)^2`), the TIR branch
`sin_t2 > 1` is taken and `refract` returns `isReflecting = true`. -/
theorem C1_refract_tir_dense_to_rare (v n : ℝ × ℝ) (n1 n2 : ℝ)
    (hn2 : 0 < n2) (hlt : n2 < n1)
    (hcrit : n2 / n1 * (n2 / n1) < 1 - dot n v * dot n v) :
    (refract v n n1 n2).2 = true := by
  rw [refract_isReflecting, decide_eq_true_eq]
  have hn1 : 0 < n1 := lt_trans hn2 hlt
  have hr : (0 : ℝ) < n1 / n2 := div_pos hn1 hn2
  have h1 : n2 / n1 * (n2 / n1) * (n1 / n2 * (n1 / n2)) = 1 := by
    field_simp
  nlinarith [hcrit, mul_pos hr hr]

/-- Witness for C1's amended theorem: incident `(1,0)`, normal `(0,1)`,
`n1 = 2`, `n2 = 1`; the incidence (grazing along the surface) is past the
critical angle, and the TIR branch is taken. -/
theorem C1_witness :
    (0 : ℝ) < 1 ∧ (1 : ℝ) < 2 ∧
    ((1 : ℝ) / 2 * (1 / 2) < 1 - dot (0, 1) (1, 0) * dot (0, 1) (1, 0)) ∧
    (refract ((1 : ℝ), (0 : ℝ)) (0, 1) 2 1).2 = true := by
  refine ⟨one_pos, one_lt_two, ?_, ?_⟩
  · unfold dot; norm_num
  · exact C1_refract_tir_dense_to_rare (1, 0) (0, 1) 2 1 one_pos one_lt_two
      (by unfold dot; norm_num)

/-- A ray segment `{start, direction}` as produced by a cell's `interact`. -/
structure Seg where
  start : ℝ × ℝ
  direction : ℝ × ℝ

/-- JS `x || dflt` on an optional string: `undefined` and the empty string
are falsy. -/
def jsOrString (x : Option String) (dflt : String) : String :=
  match x with
  | none => dflt
  | some s => if s = "" then dflt else s

/-- The JS ternary `cellData.rotation ? cellData.rotation/180*Math.PI : dflt`
used by `Game.parseGrid`: a present non-zero rotation (degrees) is converted
to radians, while an absent rotation *and* a rotation of `0` (JS-falsy) both
yield the default.  Rotation-field numbers are modelled by `ℚ`. -/
noncomputable def parseRotationField (rotationField : Option ℚ) (dflt : ℝ) : ℝ :=
  match rotationField with
  | some r => if r = 0 then dflt else (r : ℝ) / 180 * Real.pi
  | none => dflt

/-- The cell variants of shooter.js (`EmptyCell`, `BlockCell`, `TargetCell`,
`CrossCell`, `GlassBlockCell`, `FixedMirrorCell`, `RotatableMirrorCell`) as a
sum type.  A `TargetCell`'s mutable `receive` flag lives outside the cell
(see `checkWinCondition`); `glassBlock` carries its `refractiveIndices`
map as a function from the beam color. -/
inductive Cell where
  | empty : Cell
  | block (color : String) : Cell
  | target : Cell
  | cross (rotation width : ℝ) : Cell
  | glassBlock (refractiveIndices : Option String → ℝ) : Cell
  | fixedMirror : Cell
  | rotatableMirror (rotation : ℝ) : Cell

/-- The default `refractiveIndices` map of `GlassBlockCell`'s constructor:
`{ "red": 1.5, "yellow": 1.6, "blue": 2 }`.  A JS lookup with any other key
yields `undefined` (and NaN arithmetic downstream); that case is not
representable over `ℝ`, so the model returns the arbitrary value 1 and no
theorem relies on a lookup outside the three keys. -/
noncomputable def defaultRefractiveIndices : Option String → ℝ :=
  fun color =>
    if color = some "red" then 1.5
    else if color = some "yellow" then 1.6
    else if color = some "blue" then 2
    else 1

/-- One grid-cell spec of the level data: `{type, color?, rotation?}`. -/
structure CellSpec where
  type : String
  color : Option String := none
  rotation : Option ℚ := none

/-- The `switch (cellData.type)` of `Game.parseGrid`, one cell spec at a
time.  `Block` gets `cellData.color || "black"`; `RotatableMirror` gets the
rotation field with default `1/4*Math.PI`; `Cross` gets it with default `0`
(and the `CrossCell` constructor's default width `Math.PI/16`); an unknown
type degrades to `EmptyCell`. -/
noncomputable def parseCell (cellData : CellSpec) : Cell :=
  if cellData.type = "Empty" then .empty
  else if cellData.type = "Block" then .block (jsOrString cellData.color "black")
  else if cellData.type = "GlassBlock" then .glassBlock defaultRefractiveIndices
  else if cellData.type = "Target" then .target
  else if cellData.type = "FixedMirror" then .fixedMirror
  else if cellData.type = "RotatableMirror" then
    .rotatableMirror (parseRotationField cellData.rotation (1 / 4 * Real.pi))
  else if cellData.type = "Cross" then
    .cross (parseRotationField cellData.rotation 0) (Real.pi / 16)
  else .empty

/-- `Game.parseGrid`: parse every cell spec of the 2-d level grid. -/
noncomputable def parseGrid (gridData : List (List CellSpec)) : List (List Cell) :=
  gridData.map (fun row => row.map parseCell)

/-- `BlockCell.interact(start, direction, normal, color)` from shooter.js:
pass through when the beam color strictly equals the block's color
(`===`; an unset beam color equals no string), otherwise terminate at the
entry point. -/
def blockCellInteract (cellColor : String) (start direction normal : ℝ × ℝ)
    (color : Option String) : List Seg × Bool :=
  if color = some cellColor then ([], false)
  else ([⟨start, direction⟩], true)

/-- `TargetCell.interact(start, direction)`: always terminate at the entry
point (the `receive = true` side effect is modelled outside the cell). -/
def targetCellInteract (start direction : ℝ × ℝ) : List Seg × Bool :=
  ([⟨start, direction⟩], true)

/-- `FixedMirrorCell.interact(start, direction, norm)`: reflect about the
boundary normal supplied by the tracer; does not terminate. -/
def fixedMirrorCellInteract (start direction norm : ℝ × ℝ) : List Seg × Bool :=
  ([⟨start, reflect direction norm⟩], false)

/-- `beam.color = beam.color ? beam.color : "yellow"` from
`Renderer._drawBeams`: the default-to-yellow applied at *render* time. -/
def renderBeamColor (color : Option String) : String :=
  jsOrString color "yellow"

/-- `Math.sign`. -/
noncomputable def jsign (x : ℝ) : ℝ :=
  if 0 < x then 1 else if x < 0 then -1 else 0

/-- `getLineSegmentIntersection(rayStart, rayDir, p1, p2)` from shooter.js:
solve the ray/segment system; `none` when near-parallel
(`|dot_v2_v3| < 1e-9`) or when `t1 < 0` or `t2` outside `[0,1]`. -/
noncomputable def getLineSegmentIntersection (rayStart rayDir p1 p2 : ℝ × ℝ) :
    Option (ℝ × ℝ) :=
  let v1 := (rayStart.1 - p1.1, rayStart.2 - p1.2)
  let v2 := (p2.1 - p1.1, p2.2 - p1.2)
  let v3 := (-rayDir.2, rayDir.1)
  let dot_v2_v3 := dot v2 v3
  if |dot_v2_v3| < 1e-9 then none
  else
    let t1 := (v2.1 * v1.2 - v2.2 * v1.1) / dot_v2_v3
    let t2 := dot v1 v3 / dot_v2_v3
    if 0 ≤ t1 ∧ 0 ≤ t2 ∧ t2 ≤ 1 then
      some (rayStart.1 + t1 * rayDir.1, rayStart.2 + t1 * rayDir.2)
    else none

/-- The mirror-segment endpoint `p1` of `RotatableMirrorCell.interact`. -/
noncomputable def rotMirrorP1 (rotation : ℝ) : ℝ × ℝ :=
  (-(0.5 * Real.cos rotation), -(0.5 * Real.sin rotation))

/-- The mirror-segment endpoint `p2` of `RotatableMirrorCell.interact`. -/
noncomputable def rotMirrorP2 (rotation : ℝ) : ℝ × ℝ :=
  (0.5 * Real.cos rotation, 0.5 * Real.sin rotation)

/-- The mirror normal built by `RotatableMirrorCell.interact`: the
perpendicular of the segment vector, normalized by its length, flipped when
it faces away from the incoming ray (`dot(direction, normalVec) > 0`). -/
noncomputable def rotMirrorNormal (rotation : ℝ) (direction : ℝ × ℝ) : ℝ × ℝ :=
  let mirrorVec := ((rotMirrorP2 rotation).1 - (rotMirrorP1 rotation).1,
                    (rotMirrorP2 rotation).2 - (rotMirrorP1 rotation).2)
  let normalVec0 := (-mirrorVec.2, mirrorVec.1)
  let len := Real.sqrt (normalVec0.1 ^ 2 + normalVec0.2 ^ 2)
  let normalVec1 := (normalVec0.1 / len, normalVec0.2 / len)
  if 0 < dot direction normalVec1 then
    (normalVec1.1 * -1, normalVec1.2 * -1)
  else normalVec1

/-- `RotatableMirrorCell.interact(pos, direction)`: intersect the ray with
the finite mirror segment through the cell center at the cell's rotation;
on a hit, reflect about the segment's normal flipped to face the ray. -/
noncomputable def rotatableMirrorCellInteract (rotation : ℝ)
    (pos direction : ℝ × ℝ) : List Seg × Bool :=
  match getLineSegmentIntersection pos direction (rotMirrorP1 rotation)
      (rotMirrorP2 rotation) with
  | some intersection =>
      ([⟨intersection, reflect direction (rotMirrorNormal rotation direction)⟩],
       false)
  | none => ([], false)

/-- The inverse rotation applied by `CrossCell.interact` to move the ray
into the cell's unrotated frame (the source's
`[v[0]*cos - v[1]*(-sin), v[0]*(-sin) + v[1]*cos]`). -/
noncomputable def rotNeg (rotation : ℝ) (v : ℝ × ℝ) : ℝ × ℝ :=
  (v.1 * Real.cos rotation - v.2 * (-Real.sin rotation),
   v.1 * (-Real.sin rotation) + v.2 * Real.cos rotation)

/-- The candidate `valid_ts` list built by `CrossCell.interact` when the ray
enters the solid part of the cross: axis-aligned clipping parameters against
the slot boundaries, kept when `t > 1e-9` and the crossing coordinate lies
within the solid bar (`[0.5*sin_w, 0.5*cos_w]` in absolute value). -/
noncomputable def crossValidTs (sin_w cos_w : ℝ) (rs rd : ℝ × ℝ) : List ℝ :=
  (if 1e-9 < |rd.1| then
    (let t_pos := (0.5 * sin_w - rs.1) / rd.1
     let y_pos := rs.2 + t_pos * rd.2
     if 1e-9 < t_pos ∧ |y_pos| ≤ 0.5 * cos_w ∧ 0.5 * sin_w ≤ |y_pos| then
       [t_pos] else []) ++
    (let t_neg := (-(0.5 * sin_w) - rs.1) / rd.1
     let y_neg := rs.2 + t_neg * rd.2
     if 1e-9 < t_neg ∧ |y_neg| ≤ 0.5 * cos_w ∧ 0.5 * sin_w ≤ |y_neg| then
       [t_neg] else [])
  else []) ++
  (if 1e-9 < |rd.2| then
    (let t_pos := (0.5 * sin_w - rs.2) / rd.2
     let x_pos := rs.1 + t_pos * rd.1
     if 1e-9 < t_pos ∧ |x_pos| ≤ 0.5 * cos_w ∧ 0.5 * sin_w ≤ |x_pos| then
       [t_pos] else []) ++
    (let t_neg := (-(0.5 * sin_w) - rs.2) / rd.2
     let x_neg := rs.1 + t_neg * rd.1
     if 1e-9 < t_neg ∧ |x_neg| ≤ 0.5 * cos_w ∧ 0.5 * sin_w ≤ |x_neg| then
       [t_neg] else [])
  else [])

/-- `Math.min(...valid_ts)`: minimum of the candidate list.  On an empty
list JS yields `Infinity` (and a hit point at infinity); that degenerate
value is not representable over `ℝ`, so the model returns 0 there — no
theorem relies on the empty case. -/
noncomputable def jsListMin : List ℝ → ℝ
  | [] => 0
  | x :: xs => xs.foldl min x

/-- `CrossCell.interact(start, direction)` from shooter.js: broad-phase
circle miss test, inverse rotation, circle-crossing quadratic, slot
pass-through tests, and the solid-hit clipping with its degenerate
fall-backs (`rh = h1` when the ray did not enter through a slot side, full
termination when the discriminant is negative). -/
noncomputable def crossCellInteract (rotation width : ℝ)
    (start direction : ℝ × ℝ) : List Seg × Bool :=
  let perpendicular_dist := start.1 * direction.2 - start.2 * direction.1
  if 0.5 < |perpendicular_dist| then ([], false)
  else
    let rs := rotNeg rotation start
    let rd := rotNeg rotation direction
    let sin_w := Real.sin width
    let cos_w := Real.cos width
    let b := dot rs rd
    let c := dot rs rs - 0.25
    let discriminant := b * b - c
    if 0 ≤ discriminant then
      let t1 := -b - Real.sqrt discriminant
      let t2 := -b + Real.sqrt discriminant
      let h1 := (rs.1 + t1 * rd.1, rs.2 + t1 * rd.2)
      let h2 := (rs.1 + t2 * rd.1, rs.2 + t2 * rd.2)
      if -(0.5 * sin_w) < h1.1 ∧ h1.1 < 0.5 * sin_w ∧
          -(0.5 * sin_w) < h2.1 ∧ h2.1 < 0.5 * sin_w then ([], false)
      else if -(0.5 * sin_w) < h1.2 ∧ h1.2 < 0.5 * sin_w ∧
          -(0.5 * sin_w) < h2.2 ∧ h2.2 < 0.5 * sin_w then ([], false)
      else
        let rh :=
          if (-(0.5 * sin_w) < h1.1 ∧ h1.1 < 0.5 * sin_w) ∨
              (-(0.5 * sin_w) < h1.2 ∧ h1.2 < 0.5 * sin_w) then
            let t_hit := jsListMin (crossValidTs sin_w cos_w rs rd)
            (rs.1 + t_hit * rd.1, rs.2 + t_hit * rd.2)
          else h1
        let hit := (rh.1 * Real.cos rotation - rh.2 * Real.sin rotation,
                    rh.1 * Real.sin rotation + rh.2 * Real.cos rotation)
        ([⟨hit, direction⟩], true)
    else
      ([⟨start, direction⟩], true)

/-- The exit parameter `t_x` (or `t_y`) of `GlassBlockCell.interact`'s inner
loop: distance to the `±0.5` cell face along one axis; `none` models the JS
`Infinity` used when that direction component is zero. -/
noncomputable def glassAxisT (posc dirc : ℝ) : Option ℝ :=
  if dirc ≠ 0 then some (((if 0 < dirc then 0.5 else -0.5) - posc) / dirc) else none

/-- `t_exit = Math.min(t_x, t_y)` with `none` as `Infinity`.  Both `none`
(direction `(0,0)`, giving NaN geometry in JS) is modelled by 0; no theorem
relies on that case. -/
noncomputable def glassExitT : Option ℝ → Option ℝ → ℝ
  | some a, some b => min a b
  | some a, none => a
  | none, some b => b
  | none, none => 0

/-- The exit-face normal choice of the inner loop:
`Math.abs(t_x - t_exit) < 1e-9 ? [-sign dx, 0] : [0, -sign dy]`, with
`t_x = Infinity` (`none`) never within tolerance. -/
noncomputable def glassExitNormal (t_x : Option ℝ) (t_exit : ℝ)
    (dir : ℝ × ℝ) : ℝ × ℝ :=
  match t_x with
  | some a => if |a - t_exit| < 1e-9 then (-jsign dir.1, 0) else (0, -jsign dir.2)
  | none => (0, -jsign dir.2)

/-- The bounded inner loop of `GlassBlockCell.interact` (`for i < 100`):
advance to the nearest cell face, refract material→air there, push the exit
segment, and continue (total internal reflection) or stop. -/
noncomputable def glassBounceLoop (n2 : ℝ) :
    ℕ → ℝ × ℝ → ℝ × ℝ → List Seg → List Seg
  | 0, _, _, path => path
  | fuel + 1, pos, dir, path =>
    let t_x := glassAxisT pos.1 dir.1
    let t_y := glassAxisT pos.2 dir.2
    let t_exit := glassExitT t_x t_y
    let exitPoint := (pos.1 + t_exit * dir.1, pos.2 + t_exit * dir.2)
    let exitNormal := glassExitNormal t_x t_exit dir
    let exitRes := refract dir exitNormal n2 1
    let path2 := path ++ [⟨exitPoint, exitRes.1⟩]
    if exitRes.2 then glassBounceLoop n2 fuel exitPoint exitRes.1 path2
    else path2

/-- `GlassBlockCell.interact(start, direction, norm, color)` from
shooter.js: refract air→material at the tracer-supplied entry normal; on
entry TIR return the reflected ray, otherwise run the bounded exit-face
loop.  `terminate` is `false` in all cases. -/
noncomputable def glassBlockCellInteract (refractiveIndices : Option String → ℝ)
    (start direction norm : ℝ × ℝ) (color : Option String) : List Seg × Bool :=
  let n2 := refractiveIndices color
  let entryRes := refract direction norm 1 n2
  let path := [⟨start, entryRes.1⟩]
  if entryRes.2 then (path, false)
  else (glassBounceLoop n2 100 start entryRes.1 path, false)

/-- The polymorphic `interact` dispatch over the cell variants, with the
uniform argument list `(start, direction, normal, color)` used by
`trackRays`. -/
noncomputable def cellInteract (cell : Cell) (start direction norm : ℝ × ℝ)
    (color : Option String) : List Seg × Bool :=
  match cell with
  | .empty => ([], false)
  | .block c => blockCellInteract c start direction norm color
  | .target => targetCellInteract start direction
  | .cross rotation width => crossCellInteract rotation width start direction
  | .glassBlock refr => glassBlockCellInteract refr start direction norm color
  | .fixedMirror => fixedMirrorCellInteract start direction norm
  | .rotatableMirror rotation => rotatableMirrorCellInteract rotation start direction

/-- `Math.sign` with an integer result, as used for the cell-index update
`cx += Math.sign(dx)` of `trackRays`. -/
noncomputable def intSign (x : ℝ) : ℤ :=
  if 0 < x then 1 else if x < 0 then -1 else 0

/-- A beam template: `{start, direction, cell, color}` (the `path` accrues
in the trace state). -/
structure LightBeam where
  start : ℝ × ℝ
  direction : ℝ × ℝ
  cell : ℤ × ℤ
  color : Option String

/-- The per-beam mutable state of the `trackRays` loop: the last segment
point `(sx, sy)`, the boundary-crossing point `(x, y)` handed to `interact`,
the direction, the containing cell, the crossing normal, the interaction
count and the accumulated path. -/
@[ext]
structure TraceState where
  sx : ℝ
  sy : ℝ
  x : ℝ
  y : ℝ
  dx : ℝ
  dy : ℝ
  cx : ℤ
  cy : ℤ
  nx : ℝ
  ny : ℝ
  interactionCount : ℕ
  path : List (ℝ × ℝ)

/-- Why the `trackRays` loop stopped for a beam: the interaction budget
(loop guard), a cell's `terminate` flag, exit of the grid bounds — or fuel
exhaustion of the model's bounded recursion, which theorem
`C2_trackRays_terminates` rules out for sufficient fuel. -/
inductive TraceHalt where
  | budget : TraceHalt
  | terminated : TraceHalt
  | exited : TraceHalt
  | fuelOut : TraceHalt
deriving DecidableEq

/-- `MAX_INTERACTIONS = 100` from `trackRays`. -/
def MAX_INTERACTIONS : ℕ := 100

/-- The `for (s of segments)` loop of `trackRays`: for each returned
segment, move `(sx, sy)` to the segment start converted back to grid
coordinates, push it on the path, adopt the segment's direction, and count
one interaction. -/
def applySegs (st : TraceState) (segments : List Seg) : TraceState :=
  segments.foldl
    (fun acc s =>
      { acc with
          sx := s.start.1 + (acc.cx : ℝ) + 0.5,
          sy := s.start.2 + (acc.cy : ℝ) + 0.5,
          dx := s.direction.1,
          dy := s.direction.2,
          interactionCount := acc.interactionCount + 1,
          path := acc.path ++
            [(s.start.1 + (acc.cx : ℝ) + 0.5, s.start.2 + (acc.cy : ℝ) + 0.5)] })
    st

/-- `t_vertical < t_horizontal` with `none` as JS `Infinity`
(`Infinity < Infinity` is false). -/
noncomputable def jsLtInf (a b : Option ℝ) : Bool :=
  match a, b with
  | none, _ => false
  | some _, none => true
  | some x, some y => decide (x < y)

/-- `grid[0].length`. -/
def gridWidth (grid : List (List Cell)) : ℕ :=
  (grid.getD 0 []).length

/-- `grid.length`. -/
def gridHeight (grid : List (List Cell)) : ℕ :=
  grid.length

/-- `grid[cy][cx]` for the tracer's current cell (in-bounds under the loop
invariant; the `Cell.empty` default is never reached there). -/
noncomputable def cellAt (grid : List (List Cell)) (st : TraceState) : Cell :=
  (grid.getD st.cy.toNat []).getD st.cx.toNat Cell.empty

/-- `[x - cx - 0.5, y - cy - 0.5]`: the interact entry point in cell-local
coordinates. -/
noncomputable def localPos (st : TraceState) : ℝ × ℝ :=
  (st.x - (st.cx : ℝ) - 0.5, st.y - (st.cy : ℝ) - 0.5)

/-- The DDA step of `trackRays`: distance to the next vertical/horizontal
grid line along the current direction from `(sx, sy)` (`Infinity` as
`none` for a zero component), advance the cell index on the axis crossed
first, move `(x, y)` to the crossing and record the crossing normal. -/
noncomputable def ddaStep (st1 : TraceState) : TraceState :=
  let t_vertical :=
    if st1.dx ≠ 0 then
      some ((((if 0 < st1.dx then st1.cx + 1 else st1.cx) : ℤ) - st1.sx) / st1.dx)
    else none
  let t_horizontal :=
    if st1.dy ≠ 0 then
      some ((((if 0 < st1.dy then st1.cy + 1 else st1.cy) : ℤ) - st1.sy) / st1.dy)
    else none
  let isVerticalHit := jsLtInf t_vertical t_horizontal
  let t := if isVerticalHit then t_vertical.getD 0 else t_horizontal.getD 0
  { st1 with
      cx := if isVerticalHit then st1.cx + intSign st1.dx else st1.cx,
      cy := if isVerticalHit then st1.cy else st1.cy + intSign st1.dy,
      x := st1.sx + st1.dx * t,
      y := st1.sy + st1.dy * t,
      nx := if isVerticalHit then -jsign st1.dx else 0,
      ny := if isVerticalHit then 0 else -jsign st1.dy }

/-- One iteration plus the rest of the `while` loop of `trackRays` for a
single beam, bounded by `fuel` (the loop itself is bounded by the
interaction budget and grid exit; `fuel` only makes the recursion
structural, and enough fuel always suffices — theorem
`C2_trackRays_terminates`).  Steps, as in the source: budget guard; current
cell's `interact` with the entry point in cell-local coordinates; apply the
returned segments; stop on `terminate`; DDA step; stop when the new cell is
out of bounds, pushing the exit point. -/
noncomputable def trackLoop (grid : List (List Cell)) (color : Option String) :
    ℕ → TraceState → TraceState × TraceHalt
  | 0, st => (st, TraceHalt.fuelOut)
  | fuel + 1, st =>
    if MAX_INTERACTIONS ≤ st.interactionCount then (st, TraceHalt.budget)
    else
      let res := cellInteract (cellAt grid st) (localPos st)
        (st.dx, st.dy) (st.nx, st.ny) color
      let st1 := applySegs st res.1
      if res.2 then (st1, TraceHalt.terminated)
      else
        let st2 := ddaStep st1
        if st2.cx < 0 ∨ (gridWidth grid : ℤ) ≤ st2.cx ∨
            st2.cy < 0 ∨ (gridHeight grid : ℤ) ≤ st2.cy then
          ({ st2 with path := st2.path ++ [(st2.x, st2.y)] }, TraceHalt.exited)
        else trackLoop grid color fuel st2

/-- The initial trace state `trackRays` sets up for a beam: position at the
beam start, the beam's cell and direction, initial normal `[0, 1]`, count 0,
path seeded with the start point. -/
noncomputable def initState (beam : LightBeam) : TraceState :=
  { sx := beam.start.1, sy := beam.start.2,
    x := beam.start.1, y := beam.start.2,
    dx := beam.direction.1, dy := beam.direction.2,
    cx := beam.cell.1, cy := beam.cell.2,
    nx := 0, ny := 1,
    interactionCount := 0,
    path := [beam.start] }

/-- The cell index lies inside the grid bounds used by `trackRays`. -/
def cellInBounds (grid : List (List Cell)) (cx cy : ℤ) : Prop :=
  0 ≤ cx ∧ cx < (gridWidth grid : ℤ) ∧ 0 ≤ cy ∧ cy < (gridHeight grid : ℤ)

/-- Loop invariant of the tracer: nonzero direction, an axis-unit crossing
normal, and an in-bounds cell index. -/
def TraceInv (grid : List (List Cell)) (st : TraceState) : Prop :=
  (st.dx, st.dy) ≠ (0, 0) ∧ axisUnit (st.nx, st.ny) ∧
  cellInBounds grid st.cx st.cy

/-- Every glass block of the grid refracts the traced color with an index
above 1 (true of `parseGrid`-built grids, whose glass cells all carry the
default `{red: 1.5, yellow: 1.6, blue: 2}` map, for the three level colors). -/
def glassOk (grid : List (List Cell)) (color : Option String) : Prop :=
  ∀ row ∈ grid, ∀ cell ∈ row, ∀ refr, cell = Cell.glassBlock refr →
    1 < refr color

/-- Cells remaining before the beam leaves the grid along one axis, given
the sign of that direction component. -/
noncomputable def remAxis (bound : ℕ) (c : ℤ) (dc : ℝ) : ℕ :=
  if 0 < dc then (bound - c).toNat else if dc < 0 then (c + 1).toNat else 0

/-- Decreasing measure of the tracer loop: interactions left (weighted by
the grid perimeter bound) plus cells left to exit. -/
noncomputable def traceMeasure (grid : List (List Cell)) (st : TraceState) : ℕ :=
  (MAX_INTERACTIONS + 1 - st.interactionCount) *
      (gridWidth grid + gridHeight grid + 1) +
    (remAxis (gridWidth grid) st.cx st.dx + remAxis (gridHeight grid) st.cy st.dy)

/-- `this.GAUGE_FILL_RATE = 0.3` from `Game`'s constructor. -/
def GAUGE_FILL_RATE : ℚ := 3 / 10

/-- `this.GAUGE_DECAY_RATE = 4` from `Game`'s constructor. -/
def GAUGE_DECAY_RATE : ℚ := 4

/-- The gauge update performed by `Game.gameLoop` on one tick: if all targets
are hit the gauge increases by `GAUGE_FILL_RATE * (deltaTime/1000)` and is
clamped at 1 (`Math.min`); otherwise it decreases by
`GAUGE_DECAY_RATE * (deltaTime/1000)` and is clamped at 0 (`Math.max`). -/
def gaugeTick (gaugeValue : ℚ) (allTargetsHit : Bool) (deltaTime : ℚ) : ℚ :=
  if allTargetsHit then
    min (gaugeValue + GAUGE_FILL_RATE * (deltaTime / 1000)) 1
  else
    max 0 (gaugeValue - GAUGE_DECAY_RATE * (deltaTime / 1000))

/-- `Game.checkWinCondition` from shooter.js.  Each target cell is
represented by its `receive` flag; the JS `Set` built from the filtered
(reference-identical) target objects together with `every(... has ...)`
collapses to this filter/contains form. -/
def checkWinCondition (targetCells : List Bool) : Bool :=
  if targetCells.length = 0 then false
  else
    let hitTargets := targetCells.filter (fun target => target)
    targetCells.all (fun target => hitTargets.contains target)

/-- **C5.** The gauge value is an invariant of the game-loop update: for a
tick with `deltaTime ≥ 0` and `gaugeValue ∈ [0,1]`, the updated gauge is
still in `[0,1]`; it is the fill-rate increase clamped at 1 when all targets
are hit, and the decay-rate decrease clamped at 0 otherwise. -/
theorem C5_gauge_invariant (gaugeValue deltaTime : ℚ) (allTargetsHit : Bool)
    (hdt : 0 ≤ deltaTime) (h0 : 0 ≤ gaugeValue) (h1 : gaugeValue ≤ 1) :
    (0 ≤ gaugeTick gaugeValue allTargetsHit deltaTime ∧
      gaugeTick gaugeValue allTargetsHit deltaTime ≤ 1) ∧
    gaugeTick gaugeValue true deltaTime =
      min (gaugeValue + GAUGE_FILL_RATE * (deltaTime / 1000)) 1 ∧
    gaugeTick gaugeValue false deltaTime =
      max 0 (gaugeValue - GAUGE_DECAY_RATE * (deltaTime / 1000)) := by
  refine ⟨?_, rfl, rfl⟩
  unfold gaugeTick GAUGE_FILL_RATE GAUGE_DECAY_RATE
  cases allTargetsHit with
  | false =>
    simp only [Bool.false_eq_true, if_false]
    constructor
    · exact le_max_left 0 _
    · have : gaugeValue - 4 * (deltaTime / 1000) ≤ 1 := by linarith
      exact max_le (by norm_num) this
  | true =>
    simp only [if_true]
    constructor
    · have : (0 : ℚ) ≤ gaugeValue + 3 / 10 * (deltaTime / 1000) := by positivity
      exact le_min this (by norm_num)
    · exact min_le_right _ 1

/-- Witness for C5 at `gaugeValue = 1/2`, `deltaTime = 500`, all targets hit. -/
theorem C5_witness :
    (0 : ℚ) ≤ 500 ∧ (0 : ℚ) ≤ 1 / 2 ∧ (1 / 2 : ℚ) ≤ 1 ∧
    (0 ≤ gaugeTick (1 / 2) true 500 ∧ gaugeTick (1 / 2) true 500 ≤ 1) := by
  refine ⟨by norm_num, by norm_num, by norm_num, ?_⟩
  exact (C5_gauge_invariant (1 / 2) 500 true (by norm_num) (by norm_num)
    (by norm_num)).1

/-- **C6.** `checkWinCondition` returns `false` on an empty target list, and
on a non-empty list it returns `true` exactly when every target's `receive`
flag is `true`. -/
theorem C6_checkWinCondition (targetCells : List Bool) :
    (targetCells.length = 0 → checkWinCondition targetCells = false) ∧
    (targetCells.length ≠ 0 →
      (checkWinCondition targetCells = true ↔ ∀ b ∈ targetCells, b = true)) := by
  constructor
  · intro h
    unfold checkWinCondition
    rw [if_pos h]
  · intro h
    unfold checkWinCondition
    rw [if_neg h]
    simp only [List.all_eq_true]
    constructor
    · intro hall b hb
      have hc := hall b hb
      rw [List.elem_iff, List.mem_filter] at hc
      exact hc.2
    · intro hall b hb
      have hb' := hall b hb
      rw [List.elem_iff, List.mem_filter]
      exact ⟨hb, hb'⟩

/-- Witness for C6 at the list `[true, false]`: non-empty, not all received,
so the win condition is not met. -/
theorem C6_witness :
    ([true, false].length ≠ 0) ∧
    (checkWinCondition [true, false] = true ↔ ∀ b ∈ [true, false], b = true) := by
  have h := (C6_checkWinCondition [true, false]).2 (by decide)
  exact ⟨by decide, h⟩

/-- **C3, counterexample.** A beam whose color field is unspecified does
*not* behave as a yellow beam during tracing: a `Block` of color `"yellow"`
terminates it (`undefined === "yellow"` is false), while a beam of color
`"yellow"` passes through. -/
theorem C3_counterexample :
    blockCellInteract "yellow" (0, 0) (0, 1) (0, 1) none =
      ([⟨(0, 0), (0, 1)⟩], true) ∧
    ([⟨((0 : ℝ), (0 : ℝ)), ((0 : ℝ), (1 : ℝ))⟩], true) ≠
      (([] : List Seg), false) ∧
    blockCellInteract "yellow" (0, 0) (0, 1) (0, 1) (some "yellow") =
      ([], false) := by
  refine ⟨?_, ?_, ?_⟩
  · simp [blockCellInteract]
  · simp
  · simp [blockCellInteract]

/-- **C3, amended.** An unspecified beam color is defaulted to `"yellow"`
only at render time (`Renderer._drawBeams`); during tracing it matches no
block color, so a `Block` of any color — `"yellow"` included — terminates a
colorless beam at its entry point, whereas a beam of color `"yellow"` passes
through a yellow block unaffected. -/
theorem C3_unspecified_color_is_blocked (cellColor : String)
    (s d n : ℝ × ℝ) :
    blockCellInteract cellColor s d n none = ([⟨s, d⟩], true) ∧
    blockCellInteract "yellow" s d n (some "yellow") = ([], false) ∧
    renderBeamColor none = "yellow" := by
  refine ⟨?_, ?_, rfl⟩
  · simp [blockCellInteract]
  · simp [blockCellInteract]

/-- **C4, counterexample.** A `RotatableMirror` spec with rotation field `0`
does *not* yield a mirror with rotation `0` radians: `0` is JS-falsy, so the
ternary in `Game.parseGrid` falls back to the default `1/4*Math.PI`. -/
theorem C4_counterexample :
    parseCell ⟨"RotatableMirror", none, some 0⟩ =
      Cell.rotatableMirror (1 / 4 * Real.pi) ∧
    parseCell ⟨"RotatableMirror", none, some 0⟩ ≠
      Cell.rotatableMirror 0 := by
  have hparse : parseCell ⟨"RotatableMirror", none, some 0⟩ =
      Cell.rotatableMirror (1 / 4 * Real.pi) := by
    simp [parseCell, parseRotationField]
  refine ⟨hparse, ?_⟩
  rw [hparse]
  intro hcontra
  have hpi : (1 / 4 : ℝ) * Real.pi = 0 := by
    injection hcontra
  nlinarith [Real.pi_pos]

/-- **C4, amended.** `Game.parseGrid` converts a present *non-zero* rotation
field `r` (degrees) to `r*π/180` radians; an absent rotation yields the
default (`0` for `Cross`, `π/4` for `RotatableMirror`); and — because JS
treats `0` as falsy — a present rotation `0` also yields the default, so a
`RotatableMirror` spec with rotation `0` gets `π/4`, not `0` (for `Cross`
the default `0` coincides with the converted value). -/
theorem C4_parseGrid_rotation (r : ℚ) (hr : r ≠ 0) :
    parseCell ⟨"RotatableMirror", none, some r⟩ =
      Cell.rotatableMirror ((r : ℝ) / 180 * Real.pi) ∧
    parseCell ⟨"Cross", none, some r⟩ =
      Cell.cross ((r : ℝ) / 180 * Real.pi) (Real.pi / 16) ∧
    parseCell ⟨"RotatableMirror", none, none⟩ =
      Cell.rotatableMirror (1 / 4 * Real.pi) ∧
    parseCell ⟨"Cross", none, none⟩ = Cell.cross 0 (Real.pi / 16) ∧
    parseCell ⟨"RotatableMirror", none, some 0⟩ =
      Cell.rotatableMirror (1 / 4 * Real.pi) ∧
    parseCell ⟨"Cross", none, some 0⟩ = Cell.cross 0 (Real.pi / 16) := by
  refine ⟨?_, ?_, ?_, ?_, ?_, ?_⟩ <;>
    simp [parseCell, parseRotationField, hr]

/-- Witness for C4's amended theorem at `r = 45`. -/
theorem C4_witness :
    (45 : ℚ) ≠ 0 ∧
    parseCell ⟨"RotatableMirror", none, some 45⟩ =
      Cell.rotatableMirror ((45 : ℝ) / 180 * Real.pi) := by
  refine ⟨by norm_num, ?_⟩
  exact ((C4_parseGrid_rotation 45 (by norm_num)).1).trans (by norm_num)

/-- **C10.** A `Block` spec without a color field parses to a `BlockCell` of
color `"black"` (`cellData.color || "black"`), and since no beam color —
set or unset — equals `"black"`, such a block terminates every beam at its
entry point, returning `([{start, direction}], true)`. -/
theorem C10_default_block_blocks_all (color : Option String)
    (hc : color ≠ some "black") :
    parseCell ⟨"Block", none, none⟩ = Cell.block "black" ∧
    ∀ s d n : ℝ × ℝ,
      blockCellInteract "black" s d n color = ([⟨s, d⟩], true) := by
  constructor
  · simp [parseCell, jsOrString]
  · intro s d n
    unfold blockCellInteract
    rw [if_neg hc]

/-- Witness for C10 at beam color `"red"`. -/
theorem C10_witness :
    (some "red" ≠ some "black") ∧
    blockCellInteract "black" (0, 0) (1, 0) (0, 1) (some "red") =
      ([⟨(0, 0), (1, 0)⟩], true) := by
  refine ⟨by decide, ?_⟩
  exact (C10_default_block_blocks_all (some "red") (by decide)).2 (0, 0) (1, 0)
    (0, 1)

/-- At normal incidence (incident direction antiparallel to the unit
normal) `refract` leaves the direction unchanged for every pair of indices:
`sin_t2 = 0`, `cos_t = 1`, and the vector form collapses to the incident
vector. -/
theorem refract_normal_incidence (v n : ℝ × ℝ) (n1 n2 : ℝ)
    (hv : v = (-n.1, -n.2)) (hn : isUnit n) :
    refract v n n1 n2 = ((-n.1, -n.2), false) := by
  unfold isUnit at hn
  have hdot : dot n v = -1 := by
    subst hv; unfold dot; simp only; linarith
  have hcond : ¬ 1 < n1 / n2 * (n1 / n2) * (1 - dot n v * dot n v) := by
    rw [hdot]; norm_num
  rw [refract_of_not_tir v n n1 n2 hcond, hdot]
  subst hv
  norm_num [Real.sqrt_one]
  constructor <;> ring

/-- **C8.** For a `GlassBlock` whose refractive index for the beam's color
is 1.5, a beam entering a cell face at normal incidence (direction
antiparallel to the face's axis normal, entry point on that face) exits
through the opposite face with its direction unchanged, and
`GlassBlockCell.interact` returns exactly the entry segment and the exit
segment with `terminate = false`. -/
theorem C8_glass_normal_incidence (refr : Option String → ℝ)
    (color : Option String) (hn2 : refr color = 1.5) (n start : ℝ × ℝ)
    (hn : axisUnit n) (hface : dot start n = 1 / 2) :
    glassBlockCellInteract refr start (-n.1, -n.2) n color =
      ([⟨start, (-n.1, -n.2)⟩,
        ⟨(start.1 - n.1, start.2 - n.2), (-n.1, -n.2)⟩], false) := by
  obtain ⟨s1, s2⟩ := start
  have hu : isUnit n := by
    rcases hn with h | h | h | h <;> subst h <;> unfold isUnit <;> norm_num
  have hentry : refract (-n.1, -n.2) n 1 (3 / 2) = ((-n.1, -n.2), false) :=
    refract_normal_incidence _ n 1 (3 / 2) rfl hu
  have hexit : refract (-n.1, -n.2) n (3 / 2) 1 = ((-n.1, -n.2), false) :=
    refract_normal_incidence _ n (3 / 2) 1 rfl hu
  rcases hn with h | h | h | h <;> subst h <;>
    simp only [dot] at hface <;> norm_num at hface hentry hexit ⊢
  · -- n = (1, 0): beam moves (-1, 0), enters the face x = 1/2
    subst hface
    unfold glassBlockCellInteract
    rw [hn2]
    norm_num [hentry]
    rw [show (100 : ℕ) = 99 + 1 from rfl]
    unfold glassBounceLoop
    simp only [glassAxisT, glassExitT, glassExitNormal, jsign]
    norm_num [hexit]
  · -- n = (-1, 0): beam moves (1, 0), enters the face x = -1/2
    have hs1 : s1 = -(1 / 2) := by linarith
    subst hs1
    unfold glassBlockCellInteract
    rw [hn2]
    norm_num [hentry]
    rw [show (100 : ℕ) = 99 + 1 from rfl]
    unfold glassBounceLoop
    simp only [glassAxisT, glassExitT, glassExitNormal, jsign]
    norm_num [hexit]
  · -- n = (0, 1): beam moves (0, -1), enters the face y = 1/2
    subst hface
    unfold glassBlockCellInteract
    rw [hn2]
    norm_num [hentry]
    rw [show (100 : ℕ) = 99 + 1 from rfl]
    unfold glassBounceLoop
    simp only [glassAxisT, glassExitT, glassExitNormal, jsign]
    norm_num [hexit]
  · -- n = (0, -1): beam moves (0, 1), enters the face y = -1/2
    have hs2 : s2 = -(1 / 2) := by linarith
    subst hs2
    unfold glassBlockCellInteract
    rw [hn2]
    norm_num [hentry]
    rw [show (100 : ℕ) = 99 + 1 from rfl]
    unfold glassBounceLoop
    simp only [glassAxisT, glassExitT, glassExitNormal, jsign]
    norm_num [hexit]

/-- Witness for C8: the default glass map at color `"red"` (index 1.5),
normal `(-1, 0)`, entry point `(-1/2, 0)`, beam direction `(1, 0)`. -/
theorem C8_witness :
    defaultRefractiveIndices (some "red") = 1.5 ∧
    axisUnit (-1, 0) ∧
    dot (-(1 / 2), 0) (-1, 0) = 1 / 2 ∧
    glassBlockCellInteract defaultRefractiveIndices (-(1 / 2), 0)
        (-(-1 : ℝ), -(0 : ℝ)) (-1, 0) (some "red") =
      ([⟨(-(1 / 2), 0), (-(-1 : ℝ), -(0 : ℝ))⟩,
        ⟨(-(1 / 2) - -1, 0 - 0), (-(-1 : ℝ), -(0 : ℝ))⟩], false) := by
  have h1 : defaultRefractiveIndices (some "red") = 1.5 := by
    simp [defaultRefractiveIndices]
  have h2 : axisUnit ((-1 : ℝ), (0 : ℝ)) := Or.inr (Or.inl rfl)
  have h3 : dot (-(1 / 2), 0) ((-1 : ℝ), (0 : ℝ)) = 1 / 2 := by
    unfold dot; norm_num
  exact ⟨h1, h2, h3,
    C8_glass_normal_incidence defaultRefractiveIndices (some "red") h1
      (-1, 0) (-(1 / 2), 0) h2 h3⟩

/-- **C9.** For a `Cross` cell with slot half-width 0 (degenerate), every
ray aimed exactly at the cell center (unit direction, line through the
origin of cell-local coordinates, i.e. `start × direction = 0`) terminates:
`CrossCell.interact` returns a single segment with `terminate = true`, never
the pass-through result `([], false)`.  With `width = 0` the slot tests
`-0.5*sin(0) < x < 0.5*sin(0)` demand `0 < x < 0`, so no pass-through branch
is reachable once the broad-phase test (`|perpendicular_dist| = 0 ≤ 0.5`)
has been passed. -/
theorem C9_cross_degenerate_center (rotation : ℝ) (s d : ℝ × ℝ)
    (hd : isUnit d) (hp : s.1 * d.2 - s.2 * d.1 = 0) :
    (crossCellInteract rotation 0 s d).2 = true ∧
    (crossCellInteract rotation 0 s d).1.length = 1 := by
  simp only [crossCellInteract, Real.sin_zero, Real.cos_zero, mul_zero,
    neg_zero, hp, abs_zero]
  split_ifs with hc1 hc2 hc3 hc4 hc5
  · exact absurd hc1 (by norm_num)
  · obtain ⟨ha, hb, -, -⟩ := hc3
    exact absurd (lt_trans ha hb) (lt_irrefl 0)
  · obtain ⟨ha, hb, -, -⟩ := hc4
    exact absurd (lt_trans ha hb) (lt_irrefl 0)
  · exact ⟨rfl, rfl⟩
  · exact ⟨rfl, rfl⟩
  · exact ⟨rfl, rfl⟩

/-- A non-trivially reflected direction cannot vanish: for `d ≠ 0` and a
unit normal, `reflect d n ≠ 0` (else `d = 2 (d·n) n` forces `d·n = 0` and
then `d = 0`). -/
theorem reflect_ne_zero (d n : ℝ × ℝ) (hd : d ≠ (0, 0)) (hn : isUnit n) :
    reflect d n ≠ (0, 0) := by
  unfold isUnit at hn
  intro h
  unfold reflect dot at h
  rw [Prod.mk.injEq] at h
  obtain ⟨e1, e2⟩ := h
  have hk : d.1 * n.1 + d.2 * n.2 = 0 := by
    linear_combination (-n.1) * e1 + (-n.2) * e2 -
      2 * (d.1 * n.1 + d.2 * n.2) * hn
  have h1 : d.1 = 0 := by rw [hk] at e1; linarith
  have h2 : d.2 = 0 := by rw [hk] at e2; linarith
  exact hd (Prod.ext h1 h2)

/-- An axis-unit vector is a unit vector. -/
theorem axisUnit_isUnit (v : ℝ × ℝ) (h : axisUnit v) : isUnit v := by
  rcases h with h | h | h | h <;> subst h <;> unfold isUnit <;> norm_num

/-- The last segment of a list, if any, has a nonzero direction. -/
def lastSegDirNonzero (segs : List Seg) : Prop :=
  ∀ seg, segs.getLast? = some seg → seg.direction ≠ (0, 0)

/-- `applySegs` unfolds one segment at a time. -/
theorem applySegs_cons (st : TraceState) (s : Seg) (rest : List Seg) :
    applySegs st (s :: rest) =
      applySegs
        { st with
            sx := s.start.1 + (st.cx : ℝ) + 0.5,
            sy := s.start.2 + (st.cy : ℝ) + 0.5,
            dx := s.direction.1, dy := s.direction.2,
            interactionCount := st.interactionCount + 1,
            path := st.path ++
              [(s.start.1 + (st.cx : ℝ) + 0.5, s.start.2 + (st.cy : ℝ) + 0.5)] }
        rest := rfl

/-- `applySegs` leaves the cell index unchanged. -/
theorem applySegs_cell (segs : List Seg) : ∀ st : TraceState,
    (applySegs st segs).cx = st.cx ∧ (applySegs st segs).cy = st.cy := by
  induction segs with
  | nil => intro st; exact ⟨rfl, rfl⟩
  | cons s rest ih =>
    intro st
    rw [applySegs_cons]
    exact ih _

/-- `applySegs` adds one interaction per segment. -/
theorem applySegs_count (segs : List Seg) : ∀ st : TraceState,
    (applySegs st segs).interactionCount =
      st.interactionCount + segs.length := by
  induction segs with
  | nil => intro st; rfl
  | cons s rest ih =>
    intro st
    rw [applySegs_cons, ih]
    simp only [List.length_cons]
    omega

/-- The direction after `applySegs` is the last segment's direction. -/
theorem applySegs_dir (segs : List Seg) (seg : Seg)
    (h : segs.getLast? = some seg) : ∀ st : TraceState,
    ((applySegs st segs).dx, (applySegs st segs).dy) = seg.direction := by
  induction segs with
  | nil => simp at h
  | cons s rest ih =>
    intro st
    cases rest with
    | nil =>
      simp only [List.getLast?_singleton, Option.some.injEq] at h
      subst h
      rw [applySegs_cons]
      rfl
    | cons r rs =>
      rw [List.getLast?_cons_cons] at h
      rw [applySegs_cons]
      exact ih h _

/-- The exit-face normal computed by the glass inner loop is the axis unit
vector `(-sign dx, 0)` (only when `dx ≠ 0`) or `(0, -sign dy)` (only when
`dy ≠ 0`): a vertical face is chosen only when `t_x` is finite, and a
horizontal face either when `t_x` is infinite (`dx = 0`, so `dy ≠ 0`) or
when `t_x` is strictly outside the `1e-9` tolerance — impossible with
`dy = 0`, where `t_exit = t_x`. -/
theorem glassExitNormal_cases (pos dir : ℝ × ℝ) (hd : dir ≠ (0, 0)) :
    (dir.1 ≠ 0 ∧
      glassExitNormal (glassAxisT pos.1 dir.1)
        (glassExitT (glassAxisT pos.1 dir.1) (glassAxisT pos.2 dir.2)) dir =
        (-jsign dir.1, 0)) ∨
    (dir.2 ≠ 0 ∧
      glassExitNormal (glassAxisT pos.1 dir.1)
        (glassExitT (glassAxisT pos.1 dir.1) (glassAxisT pos.2 dir.2)) dir =
        (0, -jsign dir.2)) := by
  by_cases h1 : dir.1 = 0
  · right
    have h2 : dir.2 ≠ 0 := fun h2 => hd (Prod.ext h1 h2)
    refine ⟨h2, ?_⟩
    simp [glassAxisT, glassExitNormal, h1]
  · by_cases h2 : dir.2 = 0
    · left
      refine ⟨h1, ?_⟩
      simp only [glassAxisT, glassExitNormal, glassExitT, h1, h2,
        if_true, if_false, ite_not, if_neg h1]
      norm_num
    · by_cases hab :
        |((if 0 < dir.1 then (0.5 : ℝ) else -0.5) - pos.1) / dir.1 -
            min (((if 0 < dir.1 then (0.5 : ℝ) else -0.5) - pos.1) / dir.1)
              (((if 0 < dir.2 then (0.5 : ℝ) else -0.5) - pos.2) / dir.2)| <
          1e-9
      · left
        refine ⟨h1, ?_⟩
        simp [glassAxisT, glassExitNormal, glassExitT, h1, h2, hab]
      · right
        refine ⟨h2, ?_⟩
        simp [glassAxisT, glassExitNormal, glassExitT, h1, h2, hab]

/-- Exit refraction at a vertical glass face: on TIR the direction's `x`
component flips; otherwise the refracted direction is nonzero — its `y`
component is `n2 * dy`, and when `dy = 0` its `x` component is `±cos_t`,
which vanishes only at the excluded critical equality
`n2^2 (1 - dx^2) = 1`. -/
theorem glass_exit_refract_vertical (n2 : ℝ) (hn2 : 1 < n2) (dir : ℝ × ℝ)
    (h1 : dir.1 ≠ 0)
    (hcrit : dir.2 = 0 → n2 ^ 2 * (1 - dir.1 ^ 2) ≠ 1) :
    ((refract dir (-jsign dir.1, 0) n2 1).2 = true →
      (refract dir (-jsign dir.1, 0) n2 1).1 = (-dir.1, dir.2)) ∧
    ((refract dir (-jsign dir.1, 0) n2 1).2 = false →
      (refract dir (-jsign dir.1, 0) n2 1).1 ≠ (0, 0)) := by
  have hn2' : (0 : ℝ) < n2 := lt_trans one_pos hn2
  set ε := -jsign dir.1 with hεdef
  have hεε : ε * ε = 1 := by
    rcases lt_or_gt_of_ne h1 with h | h
    · rw [hεdef]
      unfold jsign
      rw [if_neg (by linarith), if_pos h]
      norm_num
    · rw [hεdef]
      unfold jsign
      rw [if_pos h]
      norm_num
  have hεne : ε ≠ 0 := by
    intro h
    rw [h, mul_zero] at hεε
    norm_num at hεε
  have hdot : dot (ε, 0) dir = ε * dir.1 := by unfold dot; simp only; ring
  by_cases htir : 1 < n2 / 1 * (n2 / 1) * (1 - dot (ε, 0) dir * dot (ε, 0) dir)
  · rw [refract_of_tir dir (ε, 0) n2 1 htir]
    constructor
    · intro
      unfold reflect dot
      rw [Prod.mk.injEq]
      constructor
      · simp only
        linear_combination (-2 * dir.1) * hεε
      · simp only
        ring
    · intro hfalse
      simp at hfalse
  · rw [refract_of_not_tir dir (ε, 0) n2 1 htir]
    constructor
    · intro htrue
      simp at htrue
    · intro hfalse heq
      simp only [Prod.mk.injEq] at heq
      obtain ⟨e1, e2⟩ := heq
      rw [hdot] at e1 e2
      have hd2 : dir.2 = 0 := by
        have h := e2
        have hn2z : n2 * dir.2 = 0 := by linear_combination h
        rcases mul_eq_zero.mp hn2z with h | h
        · exact absurd h (ne_of_gt hn2')
        · exact h
      have hsqrt0 :
          Real.sqrt (1 - n2 / 1 * (n2 / 1) * (1 - ε * dir.1 * (ε * dir.1))) * ε
            = 0 := by
        linear_combination (-1) * e1 + (-(n2 * dir.1)) * hεε
      have hs : Real.sqrt
          (1 - n2 / 1 * (n2 / 1) * (1 - ε * dir.1 * (ε * dir.1))) = 0 := by
        rcases mul_eq_zero.mp hsqrt0 with h | h
        · exact h
        · exact absurd h hεne
      push_neg at htir
      rw [hdot] at htir
      have hA0 : 1 - n2 / 1 * (n2 / 1) * (1 - ε * dir.1 * (ε * dir.1)) = 0 := by
        have hnonneg :
            0 ≤ 1 - n2 / 1 * (n2 / 1) * (1 - ε * dir.1 * (ε * dir.1)) := by
          linarith
        exact (Real.sqrt_eq_zero hnonneg).mp hs
      apply hcrit hd2
      linear_combination (-1) * hA0 + n2 ^ 2 * dir.1 ^ 2 * hεε

/-- Exit refraction at a horizontal glass face: mirror image of
`glass_exit_refract_vertical`. -/
theorem glass_exit_refract_horizontal (n2 : ℝ) (hn2 : 1 < n2) (dir : ℝ × ℝ)
    (h2 : dir.2 ≠ 0)
    (hcrit : dir.1 = 0 → n2 ^ 2 * (1 - dir.2 ^ 2) ≠ 1) :
    ((refract dir (0, -jsign dir.2) n2 1).2 = true →
      (refract dir (0, -jsign dir.2) n2 1).1 = (dir.1, -dir.2)) ∧
    ((refract dir (0, -jsign dir.2) n2 1).2 = false →
      (refract dir (0, -jsign dir.2) n2 1).1 ≠ (0, 0)) := by
  have hn2' : (0 : ℝ) < n2 := lt_trans one_pos hn2
  set ε := -jsign dir.2 with hεdef
  have hεε : ε * ε = 1 := by
    rcases lt_or_gt_of_ne h2 with h | h
    · rw [hεdef]
      unfold jsign
      rw [if_neg (by linarith), if_pos h]
      norm_num
    · rw [hεdef]
      unfold jsign
      rw [if_pos h]
      norm_num
  have hεne : ε ≠ 0 := by
    intro h
    rw [h, mul_zero] at hεε
    norm_num at hεε
  have hdot : dot (0, ε) dir = ε * dir.2 := by unfold dot; simp only; ring
  by_cases htir : 1 < n2 / 1 * (n2 / 1) * (1 - dot (0, ε) dir * dot (0, ε) dir)
  · rw [refract_of_tir dir (0, ε) n2 1 htir]
    constructor
    · intro
      unfold reflect dot
      rw [Prod.mk.injEq]
      constructor
      · simp only
        ring
      · simp only
        linear_combination (-2 * dir.2) * hεε
    · intro hfalse
      simp at hfalse
  · rw [refract_of_not_tir dir (0, ε) n2 1 htir]
    constructor
    · intro htrue
      simp at htrue
    · intro hfalse heq
      simp only [Prod.mk.injEq] at heq
      obtain ⟨e1, e2⟩ := heq
      rw [hdot] at e1 e2
      have hd1 : dir.1 = 0 := by
        have hn1z : n2 * dir.1 = 0 := by linear_combination e1
        rcases mul_eq_zero.mp hn1z with h | h
        · exact absurd h (ne_of_gt hn2')
        · exact h
      have hsqrt0 :
          Real.sqrt (1 - n2 / 1 * (n2 / 1) * (1 - ε * dir.2 * (ε * dir.2))) * ε
            = 0 := by
        linear_combination (-1) * e2 + (-(n2 * dir.2)) * hεε
      have hs : Real.sqrt
          (1 - n2 / 1 * (n2 / 1) * (1 - ε * dir.2 * (ε * dir.2))) = 0 := by
        rcases mul_eq_zero.mp hsqrt0 with h | h
        · exact h
        · exact absurd h hεne
      push_neg at htir
      rw [hdot] at htir
      have hA0 : 1 - n2 / 1 * (n2 / 1) * (1 - ε * dir.2 * (ε * dir.2)) = 0 := by
        have hnonneg :
            0 ≤ 1 - n2 / 1 * (n2 / 1) * (1 - ε * dir.2 * (ε * dir.2)) := by
          linarith
        exact (Real.sqrt_eq_zero hnonneg).mp hs
      apply hcrit hd1
      linear_combination (-1) * hA0 + n2 ^ 2 * dir.2 ^ 2 * hεε

/-- Appending a segment with nonzero direction keeps the last-direction
property. -/
theorem lastSegDirNonzero_append (path : List Seg) (s : Seg)
    (h : s.direction ≠ (0, 0)) : lastSegDirNonzero (path ++ [s]) := by
  intro seg hseg
  rw [List.getLast?_concat] at hseg
  cases hseg
  exact h

/-- Through the glass inner loop, the componentwise squares of the internal
direction are those of the entry-refracted direction (internal TIR only
flips signs), and under the two critical-equality exclusions every segment
the loop leaves as last in the path has a nonzero direction. -/
theorem glassBounceLoop_last (n2 : ℝ) (hn2 : 1 < n2) (Ex2 Ey2 : ℝ)
    (hEx : Ey2 = 0 → n2 ^ 2 * (1 - Ex2) ≠ 1)
    (hEy : Ex2 = 0 → n2 ^ 2 * (1 - Ey2) ≠ 1) :
    ∀ (fuel : ℕ) (pos dir : ℝ × ℝ) (path : List Seg),
      dir.1 ^ 2 = Ex2 → dir.2 ^ 2 = Ey2 → dir ≠ (0, 0) →
      lastSegDirNonzero path →
      lastSegDirNonzero (glassBounceLoop n2 fuel pos dir path) := by
  intro fuel
  induction fuel with
  | zero => intro pos dir path _ _ _ hpath; exact hpath
  | succ fuel ih =>
    intro pos dir path hd1 hd2 hd hpath
    simp only [glassBounceLoop]
    rcases glassExitNormal_cases pos dir hd with ⟨hv1, hveq⟩ | ⟨hh2, hheq⟩
    · rw [hveq]
      have hcrit : dir.2 = 0 → n2 ^ 2 * (1 - dir.1 ^ 2) ≠ 1 := by
        intro h0
        have hy : Ey2 = 0 := by rw [← hd2, h0]; ring
        have hres := hEx hy
        rw [← hd1] at hres
        exact hres
      have gl := glass_exit_refract_vertical n2 hn2 dir hv1 hcrit
      cases hR : (refract dir (-jsign dir.1, 0) n2 1).2 with
      | false =>
        rw [if_neg Bool.false_ne_true]
        exact lastSegDirNonzero_append _ _ (gl.2 hR)
      | true =>
        rw [if_pos rfl]
        rw [gl.1 hR]
        have hnz : ((-dir.1, dir.2) : ℝ × ℝ) ≠ (0, 0) := by
          intro h
          rw [Prod.mk.injEq] at h
          have h1 : dir.1 = 0 := by linarith [h.1]
          exact hd (by rw [Prod.ext_iff]; exact ⟨h1, h.2⟩)
        apply ih
        · simp only
          rw [← hd1]; ring
        · simp only
          exact hd2
        · exact hnz
        · exact lastSegDirNonzero_append _ _ hnz
    · rw [hheq]
      have hcrit : dir.1 = 0 → n2 ^ 2 * (1 - dir.2 ^ 2) ≠ 1 := by
        intro h0
        have hx : Ex2 = 0 := by rw [← hd1, h0]; ring
        have hres := hEy hx
        rw [← hd2] at hres
        exact hres
      have gl := glass_exit_refract_horizontal n2 hn2 dir hh2 hcrit
      cases hR : (refract dir (0, -jsign dir.2) n2 1).2 with
      | false =>
        rw [if_neg Bool.false_ne_true]
        exact lastSegDirNonzero_append _ _ (gl.2 hR)
      | true =>
        rw [if_pos rfl]
        rw [gl.1 hR]
        have hnz : ((dir.1, -dir.2) : ℝ × ℝ) ≠ (0, 0) := by
          intro h
          rw [Prod.mk.injEq] at h
          have h2 : dir.2 = 0 := by linarith [h.2]
          exact hd (by rw [Prod.ext_iff]; exact ⟨h.1, h2⟩)
        apply ih
        · simp only
          exact hd1
        · simp only
          rw [← hd2]; ring
        · exact hnz
        · exact lastSegDirNonzero_append _ _ hnz

/-- Entry refraction into glass (`n1 = 1 < n2`) at a vertical axis normal
`(ε, 0)`: never TIR; the refracted vector is `(-cos_t·ε, d.2/n2)`, which is
nonzero, and it satisfies the two critical-equality exclusions needed by
`glassBounceLoop_last`. -/
theorem glass_entry_vertical (n2 : ℝ) (hn2 : 1 < n2) (d : ℝ × ℝ) (ε : ℝ)
    (hεε : ε * ε = 1) (hd : d ≠ (0, 0)) :
    (refract d (ε, 0) 1 n2).2 = false ∧
    (refract d (ε, 0) 1 n2).1 ≠ (0, 0) ∧
    ((refract d (ε, 0) 1 n2).1.2 ^ 2 = 0 →
      n2 ^ 2 * (1 - (refract d (ε, 0) 1 n2).1.1 ^ 2) ≠ 1) ∧
    ((refract d (ε, 0) 1 n2).1.1 ^ 2 = 0 →
      n2 ^ 2 * (1 - (refract d (ε, 0) 1 n2).1.2 ^ 2) ≠ 1) := by
  have hn2' : (0 : ℝ) < n2 := lt_trans one_pos hn2
  have hn2ne : n2 ≠ 0 := ne_of_gt hn2'
  have hεne : ε ≠ 0 := by
    intro h
    rw [h, mul_zero] at hεε
    norm_num at hεε
  have hdot : dot (ε, 0) d = ε * d.1 := by unfold dot; ring
  have hsin : 1 / n2 * (1 / n2) * (1 - dot (ε, 0) d * dot (ε, 0) d) < 1 := by
    rw [hdot]
    have h1 : (0 : ℝ) < 1 / n2 := by positivity
    have h2 : 1 / n2 < 1 := by rw [div_lt_one hn2']; exact hn2
    nlinarith [sq_nonneg (ε * d.1), h1, h2]
  have hnot : ¬ 1 < 1 / n2 * (1 / n2) * (1 - dot (ε, 0) d * dot (ε, 0) d) := by
    linarith
  have hApos : 0 < 1 - 1 / n2 * (1 / n2) * (1 - dot (ε, 0) d * dot (ε, 0) d) := by
    linarith
  have hSpos :
      0 < Real.sqrt (1 - 1 / n2 * (1 / n2) * (1 - dot (ε, 0) d * dot (ε, 0) d)) :=
    Real.sqrt_pos.mpr hApos
  have hSsq :
      Real.sqrt (1 - 1 / n2 * (1 / n2) * (1 - dot (ε, 0) d * dot (ε, 0) d)) ^ 2 =
        1 - 1 / n2 * (1 / n2) * (1 - dot (ε, 0) d * dot (ε, 0) d) :=
    Real.sq_sqrt (le_of_lt hApos)
  rw [refract_of_not_tir d (ε, 0) 1 n2 hnot]
  set S := Real.sqrt
    (1 - 1 / n2 * (1 / n2) * (1 - dot (ε, 0) d * dot (ε, 0) d)) with hSdef
  have hc1 : 1 / n2 * d.1 + (-(1 / n2 * dot (ε, 0) d) - S) * ((ε, 0) : ℝ × ℝ).1 =
      -(S * ε) := by
    rw [hdot]
    linear_combination (-(1 / n2) * d.1) * hεε
  have hc2 : 1 / n2 * d.2 + (-(1 / n2 * dot (ε, 0) d) - S) * ((ε, 0) : ℝ × ℝ).2 =
      d.2 / n2 := by
    rw [hdot]
    ring
  refine ⟨rfl, ?_, ?_, ?_⟩
  · intro h
    simp only [Prod.mk.injEq] at h
    obtain ⟨e1, -⟩ := h
    rw [hc1] at e1
    have : S * ε = 0 := by linarith
    rcases mul_eq_zero.mp this with h | h
    · exact absurd h (ne_of_gt hSpos)
    · exact hεne h
  · intro h2 heq
    simp only at h2 heq
    rw [hc2] at h2
    rw [hc1] at heq
    have hd2 : d.2 = 0 := by
      have := pow_eq_zero_iff (n := 2) (by norm_num) |>.mp h2
      exact (div_eq_zero_iff.mp this).resolve_right hn2ne
    have hd1 : d.1 ≠ 0 := by
      intro h1
      exact hd (by rw [Prod.ext_iff]; exact ⟨h1, hd2⟩)
    have hS2 : n2 ^ 2 * (1 - S ^ 2) = 1 := by
      linear_combination heq + n2 ^ 2 * S ^ 2 * hεε
    rw [hSsq, hdot] at hS2
    have hkey : d.1 ^ 2 = 0 := by
      have hid : n2 ^ 2 * (1 / n2 * (1 / n2)) = 1 := by
        field_simp
        ring
      nlinarith [hS2, hid, hεε]
    exact hd1 (pow_eq_zero_iff (n := 2) (by norm_num) |>.mp hkey)
  · intro h1
    simp only at h1
    rw [hc1] at h1
    have hS0 : S ^ 2 * (ε * ε) = 0 := by linear_combination h1
    rw [hεε, mul_one] at hS0
    have := pow_eq_zero_iff (n := 2) (by norm_num) |>.mp hS0
    exact absurd this (ne_of_gt hSpos)

/-- Entry refraction into glass at a horizontal axis normal `(0, ε)`:
mirror image of `glass_entry_vertical`. -/
theorem glass_entry_horizontal (n2 : ℝ) (hn2 : 1 < n2) (d : ℝ × ℝ) (ε : ℝ)
    (hεε : ε * ε = 1) (hd : d ≠ (0, 0)) :
    (refract d (0, ε) 1 n2).2 = false ∧
    (refract d (0, ε) 1 n2).1 ≠ (0, 0) ∧
    ((refract d (0, ε) 1 n2).1.2 ^ 2 = 0 →
      n2 ^ 2 * (1 - (refract d (0, ε) 1 n2).1.1 ^ 2) ≠ 1) ∧
    ((refract d (0, ε) 1 n2).1.1 ^ 2 = 0 →
      n2 ^ 2 * (1 - (refract d (0, ε) 1 n2).1.2 ^ 2) ≠ 1) := by
  have hn2' : (0 : ℝ) < n2 := lt_trans one_pos hn2
  have hn2ne : n2 ≠ 0 := ne_of_gt hn2'
  have hεne : ε ≠ 0 := by
    intro h
    rw [h, mul_zero] at hεε
    norm_num at hεε
  have hdot : dot (0, ε) d = ε * d.2 := by unfold dot; ring
  have hsin : 1 / n2 * (1 / n2) * (1 - dot (0, ε) d * dot (0, ε) d) < 1 := by
    rw [hdot]
    have h1 : (0 : ℝ) < 1 / n2 := by positivity
    have h2 : 1 / n2 < 1 := by rw [div_lt_one hn2']; exact hn2
    nlinarith [sq_nonneg (ε * d.2), h1, h2]
  have hnot : ¬ 1 < 1 / n2 * (1 / n2) * (1 - dot (0, ε) d * dot (0, ε) d) := by
    linarith
  have hApos : 0 < 1 - 1 / n2 * (1 / n2) * (1 - dot (0, ε) d * dot (0, ε) d) := by
    linarith
  have hSpos :
      0 < Real.sqrt (1 - 1 / n2 * (1 / n2) * (1 - dot (0, ε) d * dot (0, ε) d)) :=
    Real.sqrt_pos.mpr hApos
  have hSsq :
      Real.sqrt (1 - 1 / n2 * (1 / n2) * (1 - dot (0, ε) d * dot (0, ε) d)) ^ 2 =
        1 - 1 / n2 * (1 / n2) * (1 - dot (0, ε) d * dot (0, ε) d) :=
    Real.sq_sqrt (le_of_lt hApos)
  rw [refract_of_not_tir d (0, ε) 1 n2 hnot]
  set S := Real.sqrt
    (1 - 1 / n2 * (1 / n2) * (1 - dot (0, ε) d * dot (0, ε) d)) with hSdef
  have hc1 : 1 / n2 * d.1 + (-(1 / n2 * dot (0, ε) d) - S) * ((0, ε) : ℝ × ℝ).1 =
      d.1 / n2 := by
    rw [hdot]
    ring
  have hc2 : 1 / n2 * d.2 + (-(1 / n2 * dot (0, ε) d) - S) * ((0, ε) : ℝ × ℝ).2 =
      -(S * ε) := by
    rw [hdot]
    linear_combination (-(1 / n2) * d.2) * hεε
  refine ⟨rfl, ?_, ?_, ?_⟩
  · intro h
    simp only [Prod.mk.injEq] at h
    obtain ⟨-, e2⟩ := h
    rw [hc2] at e2
    have : S * ε = 0 := by linarith
    rcases mul_eq_zero.mp this with h | h
    · exact absurd h (ne_of_gt hSpos)
    · exact hεne h
  · intro h2
    simp only at h2
    rw [hc2] at h2
    have hS0 : S ^ 2 * (ε * ε) = 0 := by linear_combination h2
    rw [hεε, mul_one] at hS0
    have := pow_eq_zero_iff (n := 2) (by norm_num) |>.mp hS0
    exact absurd this (ne_of_gt hSpos)
  · intro h1 heq
    simp only at h1 heq
    rw [hc1] at h1
    rw [hc2] at heq
    have hd1 : d.1 = 0 := by
      have := pow_eq_zero_iff (n := 2) (by norm_num) |>.mp h1
      exact (div_eq_zero_iff.mp this).resolve_right hn2ne
    have hd2 : d.2 ≠ 0 := by
      intro h2'
      exact hd (by rw [Prod.ext_iff]; exact ⟨hd1, h2'⟩)
    have hS2 : n2 ^ 2 * (1 - S ^ 2) = 1 := by
      linear_combination heq + n2 ^ 2 * S ^ 2 * hεε
    rw [hSsq, hdot] at hS2
    have hkey : d.2 ^ 2 = 0 := by
      have hid : n2 ^ 2 * (1 / n2 * (1 / n2)) = 1 := by
        field_simp
        ring
      nlinarith [hS2, hid, hεε]
    exact hd2 (pow_eq_zero_iff (n := 2) (by norm_num) |>.mp hkey)

/-- Entry refraction into glass at any axis-unit normal: combines the
vertical and horizontal cases. -/
theorem glass_entry_props (n2 : ℝ) (hn2 : 1 < n2) (d n : ℝ × ℝ)
    (hd : d ≠ (0, 0)) (hn : axisUnit n) :
    (refract d n 1 n2).2 = false ∧
    (refract d n 1 n2).1 ≠ (0, 0) ∧
    ((refract d n 1 n2).1.2 ^ 2 = 0 →
      n2 ^ 2 * (1 - (refract d n 1 n2).1.1 ^ 2) ≠ 1) ∧
    ((refract d n 1 n2).1.1 ^ 2 = 0 →
      n2 ^ 2 * (1 - (refract d n 1 n2).1.2 ^ 2) ≠ 1) := by
  rcases hn with h | h | h | h <;> subst h
  · exact glass_entry_vertical n2 hn2 d 1 (by norm_num) hd
  · exact glass_entry_vertical n2 hn2 d (-1) (by norm_num) hd
  · exact glass_entry_horizontal n2 hn2 d 1 (by norm_num) hd
  · exact glass_entry_horizontal n2 hn2 d (-1) (by norm_num) hd

/-- `GlassBlockCell.interact` never terminates the beam, and the last
segment it returns carries a nonzero direction, provided the refractive
index for the beam's color exceeds 1, the incoming direction is nonzero and
the tracer-supplied normal is an axis unit. -/
theorem glassInteract_lastDir (refr : Option String → ℝ)
    (color : Option String) (hg : 1 < refr color) (s d n : ℝ × ℝ)
    (hd : d ≠ (0, 0)) (hn : axisUnit n) :
    (glassBlockCellInteract refr s d n color).2 = false ∧
    lastSegDirNonzero (glassBlockCellInteract refr s d n color).1 := by
  obtain ⟨hflag, hnz, hEx, hEy⟩ := glass_entry_props (refr color) hg d n hd hn
  unfold glassBlockCellInteract
  rw [if_neg (by rw [hflag]; exact Bool.false_ne_true)]
  refine ⟨rfl, ?_⟩
  have hpath0 : lastSegDirNonzero
      [(⟨s, (refract d n 1 (refr color)).1⟩ : Seg)] := by
    intro seg hseg
    simp only [List.getLast?_singleton, Option.some.injEq] at hseg
    subst hseg
    exact hnz
  exact glassBounceLoop_last (refr color) hg
    ((refract d n 1 (refr color)).1.1 ^ 2)
    ((refract d n 1 (refr color)).1.2 ^ 2) hEx hEy 100 s
    (refract d n 1 (refr color)).1 _ rfl rfl hnz hpath0

/-- The normal constructed by `RotatableMirrorCell.interact` (the
normalized perpendicular of the mirror segment, possibly flipped) is a unit
vector: the segment vector is `(cos, sin)`, its perpendicular already has
length 1, so the `sqrt` normalization divides by 1. -/
theorem rotMirrorNormal_unit (rotation : ℝ) (direction : ℝ × ℝ) :
    isUnit (rotMirrorNormal rotation direction) := by
  unfold rotMirrorNormal rotMirrorP1 rotMirrorP2
  have hone : (-((0.5 : ℝ) * Real.sin rotation - -(0.5 * Real.sin rotation))) ^ 2 +
      (0.5 * Real.cos rotation - -(0.5 * Real.cos rotation)) ^ 2 = 1 := by
    have h := Real.sin_sq_add_cos_sq rotation
    linear_combination h
  simp only
  rw [hone, Real.sqrt_one]
  by_cases hflip : 0 < dot direction
      (-((0.5 : ℝ) * Real.sin rotation - -(0.5 * Real.sin rotation)) / 1,
       ((0.5 : ℝ) * Real.cos rotation - -(0.5 * Real.cos rotation)) / 1)
  · rw [if_pos hflip]
    unfold isUnit
    simp only [div_one]
    have h := Real.sin_sq_add_cos_sq rotation
    nlinarith [h]
  · rw [if_neg hflip]
    unfold isUnit
    simp only [div_one]
    have h := Real.sin_sq_add_cos_sq rotation
    nlinarith [h]

/-- `RotatableMirrorCell.interact` never terminates, and any segment it
returns carries a nonzero reflected direction. -/
theorem rotMirrorInteract_lastDir (rotation : ℝ) (pos d : ℝ × ℝ)
    (hd : d ≠ (0, 0)) :
    (rotatableMirrorCellInteract rotation pos d).2 = false ∧
    lastSegDirNonzero (rotatableMirrorCellInteract rotation pos d).1 := by
  unfold rotatableMirrorCellInteract
  cases hI : getLineSegmentIntersection pos d (rotMirrorP1 rotation)
      (rotMirrorP2 rotation) with
  | none =>
    refine ⟨rfl, ?_⟩
    intro seg hseg
    simp at hseg
  | some i =>
    refine ⟨rfl, ?_⟩
    intro seg hseg
    simp only [List.getLast?_singleton, Option.some.injEq] at hseg
    subst hseg
    exact reflect_ne_zero d _ hd (rotMirrorNormal_unit rotation d)

/-- `Math.sign` of a nonzero real is `±1`. -/
theorem jsign_cases (x : ℝ) (hx : x ≠ 0) : jsign x = 1 ∨ jsign x = -1 := by
  rcases lt_or_gt_of_ne hx with h | h
  · right; unfold jsign; rw [if_neg (by linarith), if_pos h]
  · left; unfold jsign; rw [if_pos h]

/-- The integer `Math.sign` of a nonzero real is `±1`. -/
theorem intSign_cases (x : ℝ) (hx : x ≠ 0) : intSign x = 1 ∨ intSign x = -1 := by
  rcases lt_or_gt_of_ne hx with h | h
  · right; unfold intSign; rw [if_neg (by linarith), if_pos h]
  · left; unfold intSign; rw [if_pos h]

/-- `ddaStep` does not change position base, direction, count or path. -/
theorem ddaStep_preserved (st : TraceState) :
    (ddaStep st).dx = st.dx ∧ (ddaStep st).dy = st.dy ∧
    (ddaStep st).interactionCount = st.interactionCount ∧
    (ddaStep st).sx = st.sx ∧ (ddaStep st).sy = st.sy ∧
    (ddaStep st).path = st.path :=
  ⟨rfl, rfl, rfl, rfl, rfl, rfl⟩

/-- `ddaStep` moves the cell index by one on exactly one axis — the crossed
one, whose direction component is nonzero — and records the corresponding
crossing normal. -/
theorem ddaStep_move (st : TraceState) (hd : (st.dx, st.dy) ≠ (0, 0)) :
    (st.dx ≠ 0 ∧ (ddaStep st).cx = st.cx + intSign st.dx ∧
      (ddaStep st).cy = st.cy ∧
      (ddaStep st).nx = -jsign st.dx ∧ (ddaStep st).ny = 0) ∨
    (st.dy ≠ 0 ∧ (ddaStep st).cx = st.cx ∧
      (ddaStep st).cy = st.cy + intSign st.dy ∧
      (ddaStep st).nx = 0 ∧ (ddaStep st).ny = -jsign st.dy) := by
  by_cases h1 : st.dx = 0
  · right
    have h2 : st.dy ≠ 0 := by
      intro h2
      exact hd (by rw [Prod.ext_iff]; exact ⟨h1, h2⟩)
    refine ⟨h2, ?_, ?_, ?_, ?_⟩ <;>
      simp [ddaStep, jsLtInf, h1, h2]
  · by_cases h2 : st.dy = 0
    · left
      refine ⟨h1, ?_, ?_, ?_, ?_⟩ <;>
        simp [ddaStep, jsLtInf, h1, h2]
    · by_cases hcmp :
        ((if 0 < st.dx then (st.cx : ℝ) + 1 else (st.cx : ℝ)) - st.sx) / st.dx <
          ((if 0 < st.dy then (st.cy : ℝ) + 1 else (st.cy : ℝ)) - st.sy) / st.dy
      · left
        refine ⟨h1, ?_, ?_, ?_, ?_⟩ <;>
          simp [ddaStep, jsLtInf, h1, h2, hcmp]
      · right
        refine ⟨h2, ?_, ?_, ?_, ?_⟩ <;>
          simp [ddaStep, jsLtInf, h1, h2, hcmp]

/-- The crossing normal recorded by `ddaStep` is an axis unit vector. -/
theorem ddaStep_normal (st : TraceState) (hd : (st.dx, st.dy) ≠ (0, 0)) :
    axisUnit ((ddaStep st).nx, (ddaStep st).ny) := by
  rcases ddaStep_move st hd with ⟨hz, -, -, hnx, hny⟩ | ⟨hz, -, -, hnx, hny⟩
  · rw [hnx, hny]
    rcases jsign_cases st.dx hz with h | h <;> rw [h]
    · right; left; norm_num
    · left; norm_num
  · rw [hnx, hny]
    rcases jsign_cases st.dy hz with h | h <;> rw [h]
    · right; right; right; norm_num
    · right; right; left; norm_num

/-- `remAxis` is at most the grid extent for an in-bounds index. -/
theorem remAxis_le (bound : ℕ) (c : ℤ) (dc : ℝ) (h0 : 0 ≤ c)
    (hb : c < (bound : ℤ)) : remAxis bound c dc ≤ bound := by
  unfold remAxis
  split_ifs <;> omega

/-- Stepping the cell index by `intSign dc` on an in-bounds index strictly
decreases `remAxis` by one (and it was at least one). -/
theorem remAxis_step (bound : ℕ) (c : ℤ) (dc : ℝ) (hdc : dc ≠ 0) (h0 : 0 ≤ c)
    (hb : c < (bound : ℤ)) :
    1 ≤ remAxis bound c dc ∧
    remAxis bound (c + intSign dc) dc = remAxis bound c dc - 1 := by
  rcases lt_or_gt_of_ne hdc with h | h
  · have hs : intSign dc = -1 := by
      unfold intSign
      rw [if_neg (by linarith), if_pos h]
    rw [hs]
    unfold remAxis
    rw [if_neg (by linarith), if_pos h, if_neg (by linarith), if_pos h]
    omega
  · have hs : intSign dc = 1 := by
      unfold intSign
      rw [if_pos h]
    rw [hs]
    unfold remAxis
    rw [if_pos h, if_pos h]
    omega

/-- A `Cross` cell that lets the ray continue returned no segments. -/
theorem crossInteract_false_dir (rotation width : ℝ) (s d : ℝ × ℝ) :
    (crossCellInteract rotation width s d).2 = false →
    lastSegDirNonzero (crossCellInteract rotation width s d).1 := by
  simp only [crossCellInteract]
  split_ifs <;> intro hfl
  · intro seg hseg; simp at hseg
  · intro seg hseg; simp at hseg
  · intro seg hseg; simp at hseg
  · simp at hfl
  · simp at hfl
  · simp at hfl

/-- A `getD` lookup is an element of the list or the default. -/
theorem getD_mem_or_default {α : Type} (l : List α) (i : ℕ) (d : α) :
    l.getD i d ∈ l ∨ l.getD i d = d := by
  rcases Nat.lt_or_ge i l.length with h | h
  · left
    rw [List.getD_eq_getElem?_getD, List.getElem?_eq_getElem h]
    simp only [Option.getD_some]
    exact List.getElem_mem h
  · right
    rw [List.getD_eq_getElem?_getD, List.getElem?_eq_none h]
    rfl

/-- The looked-up cell of `cellAt` satisfies the glass condition whenever
the whole grid does (the out-of-range default is `Cell.empty`, which is not
a glass block). -/
theorem cellAt_glassOk (grid : List (List Cell)) (color : Option String)
    (hg : glassOk grid color) (st : TraceState) :
    ∀ refr, cellAt grid st = Cell.glassBlock refr → 1 < refr color := by
  intro refr hcell
  unfold cellAt at hcell
  rcases getD_mem_or_default grid st.cy.toNat [] with hrow | hrow
  · rcases getD_mem_or_default (grid.getD st.cy.toNat []) st.cx.toNat
        Cell.empty with hmem | hmem
    · exact hg _ hrow _ hmem refr hcell
    · rw [hmem] at hcell
      simp at hcell
  · rw [hrow] at hcell
    simp [List.getD] at hcell

/-- If a cell interaction does not terminate the beam, the segments it
returned end (if nonempty) in a nonzero direction: the master per-variant
lemma combining all seven cell kinds. -/
theorem cellInteract_lastDir (cell : Cell) (color : Option String)
    (gok : ∀ refr, cell = Cell.glassBlock refr → 1 < refr color)
    (s d n : ℝ × ℝ) (hd : d ≠ (0, 0)) (hn : axisUnit n) :
    (cellInteract cell s d n color).2 = false →
    lastSegDirNonzero (cellInteract cell s d n color).1 := by
  cases cell with
  | empty =>
    intro _
    intro seg hseg
    simp [cellInteract] at hseg
  | block c =>
    intro hfl
    simp only [cellInteract, blockCellInteract] at hfl ⊢
    by_cases hc : color = some c
    · rw [if_pos hc]
      intro seg hseg
      simp at hseg
    · rw [if_neg hc] at hfl
      simp at hfl
  | target =>
    intro hfl
    simp only [cellInteract, targetCellInteract] at hfl
    simp at hfl
  | cross rotation width =>
    intro hfl
    exact crossInteract_false_dir rotation width s d hfl
  | glassBlock refr =>
    intro _
    exact (glassInteract_lastDir refr color (gok refr rfl) s d n hd hn).2
  | fixedMirror =>
    intro _
    intro seg hseg
    simp only [cellInteract, fixedMirrorCellInteract,
      List.getLast?_singleton, Option.some.injEq] at hseg
    subst hseg
    exact reflect_ne_zero d n hd (axisUnit_isUnit n hn)
  | rotatableMirror rotation =>
    intro _
    exact (rotMirrorInteract_lastDir rotation s d hd).2

/-- Core termination argument for the tracer: with fuel exceeding the
decreasing measure, the loop never runs out of fuel — each iteration either
halts (budget, terminate, exit) or strictly decreases the measure, because a
counted interaction lowers the budget component and an uncounted pass-through
moves the cell one step closer to the grid edge along its unchanged
direction. -/
theorem trackLoop_no_fuelOut (grid : List (List Cell)) (color : Option String)
    (hglass : glassOk grid color) :
    ∀ (fuel : ℕ) (st : TraceState), TraceInv grid st →
      traceMeasure grid st < fuel →
      (trackLoop grid color fuel st).2 ≠ TraceHalt.fuelOut := by
  intro fuel
  induction fuel with
  | zero => intro st _ hm; omega
  | succ fuel ih =>
    intro st hinv hm
    obtain ⟨hdir, hnorm, hcx0, hcxW, hcy0, hcyH⟩ := hinv
    simp only [trackLoop]
    by_cases hbudget : MAX_INTERACTIONS ≤ st.interactionCount
    · rw [if_pos hbudget]
      intro h
      simp at h
    · rw [if_neg hbudget]
      have hlast := cellInteract_lastDir (cellAt grid st) color
        (cellAt_glassOk grid color hglass st) (localPos st)
        (st.dx, st.dy) (st.nx, st.ny) hdir hnorm
      set res := cellInteract (cellAt grid st) (localPos st)
        (st.dx, st.dy) (st.nx, st.ny) color with hresdef
      by_cases hterm : res.2 = true
      · rw [if_pos hterm]
        intro h
        simp at h
      · have hterm' : res.2 = false := by
          cases h : res.2
          · rfl
          · exact absurd h hterm
        rw [if_neg hterm]
        cases hsegs : res.1 with
        | nil =>
          simp only [applySegs, List.foldl_nil]
          by_cases hout : (ddaStep st).cx < 0 ∨
              (gridWidth grid : ℤ) ≤ (ddaStep st).cx ∨
              (ddaStep st).cy < 0 ∨ (gridHeight grid : ℤ) ≤ (ddaStep st).cy
          · rw [if_pos hout]
            intro h
            simp at h
          · rw [if_neg hout]
            push_neg at hout
            obtain ⟨ho1, ho2, ho3, ho4⟩ := hout
            have hdir2 : ((ddaStep st).dx, (ddaStep st).dy) ≠ (0, 0) := by
              rw [show ((ddaStep st).dx, (ddaStep st).dy) = (st.dx, st.dy) by
                rw [(ddaStep_preserved st).1, (ddaStep_preserved st).2.1]]
              exact hdir
            apply ih (ddaStep st)
              ⟨hdir2, ddaStep_normal st hdir, ho1, ho2, ho3, ho4⟩
            unfold traceMeasure at hm ⊢
            rw [(ddaStep_preserved st).1, (ddaStep_preserved st).2.1,
              (ddaStep_preserved st).2.2.1]
            rcases ddaStep_move st hdir with
              ⟨hvx, hcx2, hcy2, -, -⟩ | ⟨hvy, hcx2, hcy2, -, -⟩
            · rw [hcx2, hcy2,
                (remAxis_step (gridWidth grid) st.cx st.dx hvx hcx0 hcxW).2]
              have h1 := (remAxis_step (gridWidth grid) st.cx st.dx hvx hcx0
                hcxW).1
              omega
            · rw [hcx2, hcy2,
                (remAxis_step (gridHeight grid) st.cy st.dy hvy hcy0 hcyH).2]
              have h1 := (remAxis_step (gridHeight grid) st.cy st.dy hvy hcy0
                hcyH).1
              omega
        | cons s0 rest =>
          by_cases hout : (ddaStep (applySegs st (s0 :: rest))).cx < 0 ∨
              (gridWidth grid : ℤ) ≤ (ddaStep (applySegs st (s0 :: rest))).cx ∨
              (ddaStep (applySegs st (s0 :: rest))).cy < 0 ∨
              (gridHeight grid : ℤ) ≤ (ddaStep (applySegs st (s0 :: rest))).cy
          · rw [if_pos hout]
            intro h
            simp at h
          · rw [if_neg hout]
            push_neg at hout
            obtain ⟨ho1, ho2, ho3, ho4⟩ := hout
            have hlsome : ∃ seg, (s0 :: rest).getLast? = some seg := by
              have := List.getLast?_isSome (l := s0 :: rest)
              rw [Option.isSome_iff_exists] at this
              exact this.mpr (by simp)
            obtain ⟨seg, hlseg⟩ := hlsome
            have hdir1 : ((applySegs st (s0 :: rest)).dx,
                (applySegs st (s0 :: rest)).dy) ≠ (0, 0) := by
              rw [applySegs_dir (s0 :: rest) seg hlseg st]
              exact hlast hterm' seg (by rw [hsegs]; exact hlseg)
            have hdir2 : ((ddaStep (applySegs st (s0 :: rest))).dx,
                (ddaStep (applySegs st (s0 :: rest))).dy) ≠ (0, 0) := by
              rw [show ((ddaStep (applySegs st (s0 :: rest))).dx,
                  (ddaStep (applySegs st (s0 :: rest))).dy) =
                  ((applySegs st (s0 :: rest)).dx,
                   (applySegs st (s0 :: rest)).dy) by
                rw [(ddaStep_preserved _).1, (ddaStep_preserved _).2.1]]
              exact hdir1
            apply ih (ddaStep (applySegs st (s0 :: rest)))
              ⟨hdir2, ddaStep_normal _ hdir1, ho1, ho2, ho3, ho4⟩
            unfold traceMeasure at hm ⊢
            have hcount2 : (ddaStep (applySegs st (s0 :: rest))).interactionCount =
                st.interactionCount + (s0 :: rest).length := by
              rw [(ddaStep_preserved _).2.2.1, applySegs_count]
            rw [hcount2]
            have hlen : 1 ≤ (s0 :: rest).length := by simp
            have hrem2 : remAxis (gridWidth grid)
                (ddaStep (applySegs st (s0 :: rest))).cx
                (ddaStep (applySegs st (s0 :: rest))).dx +
                remAxis (gridHeight grid)
                (ddaStep (applySegs st (s0 :: rest))).cy
                (ddaStep (applySegs st (s0 :: rest))).dy ≤
                gridWidth grid + gridHeight grid := by
              have hx := remAxis_le (gridWidth grid) _
                ((ddaStep (applySegs st (s0 :: rest))).dx) ho1 ho2
              have hy := remAxis_le (gridHeight grid) _
                ((ddaStep (applySegs st (s0 :: rest))).dy) ho3 ho4
              omega
            have hA : MAX_INTERACTIONS + 1 -
                (st.interactionCount + (s0 :: rest).length) ≤
                MAX_INTERACTIONS - st.interactionCount := by omega
            have h1 : (MAX_INTERACTIONS + 1 -
                (st.interactionCount + (s0 :: rest).length)) *
                (gridWidth grid + gridHeight grid + 1) ≤
                (MAX_INTERACTIONS - st.interactionCount) *
                (gridWidth grid + gridHeight grid + 1) :=
              Nat.mul_le_mul_right _ hA
            have h4 : (MAX_INTERACTIONS - st.interactionCount) *
                (gridWidth grid + gridHeight grid + 1) +
                (gridWidth grid + gridHeight grid + 1) =
                (MAX_INTERACTIONS + 1 - st.interactionCount) *
                (gridWidth grid + gridHeight grid + 1) := by
              have he : MAX_INTERACTIONS - st.interactionCount + 1 =
                  MAX_INTERACTIONS + 1 - st.interactionCount := by omega
              rw [← he, Nat.succ_mul]
            have h5 := Nat.le_add_right
              ((MAX_INTERACTIONS + 1 - st.interactionCount) *
                (gridWidth grid + gridHeight grid + 1))
              (remAxis (gridWidth grid) st.cx st.dx +
                remAxis (gridHeight grid) st.cy st.dy)
            omega

/-- Witness for C9 at rotation 0, `start = (-1, 0)`, `direction = (1, 0)`. -/
theorem C9_witness :
    isUnit ((1 : ℝ), (0 : ℝ)) ∧
    ((-1 : ℝ)) * (0 : ℝ) - (0 : ℝ) * (1 : ℝ) = 0 ∧
    ((crossCellInteract 0 0 (-1, 0) (1, 0)).2 = true ∧
      (crossCellInteract 0 0 (-1, 0) (1, 0)).1.length = 1) := by
  have h1 : isUnit ((1 : ℝ), (0 : ℝ)) := by unfold isUnit; norm_num
  have h2 : ((-1 : ℝ), (0 : ℝ)).1 * ((1 : ℝ), (0 : ℝ)).2 -
      ((-1 : ℝ), (0 : ℝ)).2 * ((1 : ℝ), (0 : ℝ)).1 = 0 := by norm_num
  exact ⟨h1, by norm_num, C9_cross_degenerate_center 0 (-1, 0) (1, 0) h1 h2⟩

/-- **C2 (amended).** The `trackRays` loop for a single beam always
terminates, for every grid whose glass cells refract the beam's color with
an index above 1 and every beam with nonzero direction starting in bounds:
with fuel beyond the decreasing measure, the loop ends by a cell's
`terminate` flag, by exiting the grid bounds, or by the interaction budget
guard — never by fuel exhaustion (i.e. never loops forever).  The budget
guard bounds the count *checked at each iteration* by
`MAX_INTERACTIONS = 100`, but the final count can exceed 100, since one
interaction may append several counted segments (see `C2_counterexample`,
which reaches 101). -/
theorem C2_trackRays_terminates (grid : List (List Cell)) (beam : LightBeam)
    (hglass : glassOk grid beam.color)
    (hdir : beam.direction ≠ (0, 0))
    (hcell : cellInBounds grid beam.cell.1 beam.cell.2)
    (fuel : ℕ) (hfuel : traceMeasure grid (initState beam) < fuel) :
    (trackLoop grid beam.color fuel (initState beam)).2 = TraceHalt.terminated ∨
    (trackLoop grid beam.color fuel (initState beam)).2 = TraceHalt.exited ∨
    (trackLoop grid beam.color fuel (initState beam)).2 = TraceHalt.budget := by
  have hinv : TraceInv grid (initState beam) := by
    refine ⟨?_, ?_, ?_⟩
    · simpa [initState] using hdir
    · exact Or.inr (Or.inr (Or.inl rfl))
    · exact hcell
  have h := trackLoop_no_fuelOut grid beam.color hglass fuel (initState beam)
    hinv hfuel
  cases hhalt : (trackLoop grid beam.color fuel (initState beam)).2 with
  | budget => exact Or.inr (Or.inr rfl)
  | terminated => exact Or.inl rfl
  | exited => exact Or.inr (Or.inl rfl)
  | fuelOut => exact absurd hhalt h

/-- Witness for C2: a 1×1 all-empty grid, beam from its center heading
east; the measure is 304, so fuel 305 suffices. -/
theorem C2_witness :
    glassOk [[Cell.empty]] (LightBeam.mk (1 / 2, 1 / 2) (1, 0) (0, 0) none).color ∧
    (LightBeam.mk ((1 / 2 : ℝ), (1 / 2 : ℝ)) (1, 0) (0, 0) none).direction ≠ (0, 0) ∧
    cellInBounds [[Cell.empty]] 0 0 ∧
    traceMeasure [[Cell.empty]]
      (initState (LightBeam.mk (1 / 2, 1 / 2) (1, 0) (0, 0) none)) < 305 ∧
    ((trackLoop [[Cell.empty]] none 305
        (initState (LightBeam.mk (1 / 2, 1 / 2) (1, 0) (0, 0) none))).2 =
        TraceHalt.terminated ∨
      (trackLoop [[Cell.empty]] none 305
        (initState (LightBeam.mk (1 / 2, 1 / 2) (1, 0) (0, 0) none))).2 =
        TraceHalt.exited ∨
      (trackLoop [[Cell.empty]] none 305
        (initState (LightBeam.mk (1 / 2, 1 / 2) (1, 0) (0, 0) none))).2 =
        TraceHalt.budget) := by
  have h1 : glassOk [[Cell.empty]]
      (LightBeam.mk ((1 / 2 : ℝ), (1 / 2 : ℝ)) (1, 0) (0, 0) none).color := by
    intro row hrow cell hcell refr habs
    simp only [List.mem_singleton] at hrow
    subst hrow
    simp only [List.mem_singleton] at hcell
    subst hcell
    exact absurd habs (by intro h; cases h)
  have h2 : (LightBeam.mk ((1 / 2 : ℝ), (1 / 2 : ℝ)) (1, 0) (0, 0) none).direction ≠
      (0, 0) := by
    simp only [ne_eq, Prod.mk.injEq, not_and]
    intro h
    norm_num at h
  have h3 : cellInBounds [[Cell.empty]] 0 0 := by
    unfold cellInBounds gridWidth gridHeight
    norm_num
  have h4 : traceMeasure [[Cell.empty]]
      (initState (LightBeam.mk ((1 / 2 : ℝ), (1 / 2 : ℝ)) (1, 0) (0, 0) none)) <
      305 := by
    unfold traceMeasure initState gridWidth gridHeight remAxis MAX_INTERACTIONS
    norm_num
  exact ⟨h1, h2, h3, h4,
    C2_trackRays_terminates [[Cell.empty]] (LightBeam.mk (1 / 2, 1 / 2) (1, 0) (0, 0) none)
      h1 h2 h3 305 h4⟩

/-- A 1×52 corridor level: a fixed mirror, an empty cell, then 50 glass
blocks with the default refractive-index map. -/
noncomputable def corridorGrid : List (List Cell) :=
  [Cell.fixedMirror :: Cell.empty ::
    List.replicate 50 (Cell.glassBlock defaultRefractiveIndices)]

/-- A red beam fired westward from the empty cell of the corridor at the
mirror. -/
noncomputable def corridorBeam : LightBeam :=
  { start := (3 / 2, 1 / 2), direction := (-1, 0), cell := (1, 0),
    color := some "red" }

/-- The tracer state entering corridor cell `k` from the west, heading
east, with `count` interactions so far: the crossing point `x` sits on the
cell's west face; `s` is the last segment base, irrelevant to the cell
interactions of the corridor. -/
noncomputable def corridorSt (s : ℝ) (k : ℤ) (count : ℕ)
    (path : List (ℝ × ℝ)) : TraceState :=
  { sx := s, sy := 1 / 2, x := (k : ℝ), y := 1 / 2,
    dx := 1, dy := 0, cx := k, cy := 0, nx := -1, ny := 0,
    interactionCount := count, path := path }

/-- `getD` of a replicated list within range is the replicated element. -/
theorem getD_replicate {α : Type} (g d : α) :
    ∀ (n j : ℕ), j < n → (List.replicate n g).getD j d = g := by
  intro n
  induction n with
  | zero => intro j h; omega
  | succ n ih =>
    intro j h
    cases j with
    | zero => rfl
    | succ j =>
      rw [List.replicate_succ, List.getD_cons_succ]
      exact ih j (by omega)

/-- The corridor grid is 52 cells wide. -/
theorem corridor_width : gridWidth corridorGrid = 52 := by
  unfold gridWidth corridorGrid
  simp [List.length_replicate]

/-- The corridor grid is one cell tall. -/
theorem corridor_height : gridHeight corridorGrid = 1 := rfl

/-- Cells `2, …, 51` of the corridor are the glass blocks. -/
theorem corridor_cellAt_glass (s : ℝ) (k : ℤ) (hk1 : 2 ≤ k) (hk2 : k ≤ 51)
    (c : ℕ) (path : List (ℝ × ℝ)) :
    cellAt corridorGrid (corridorSt s k c path) =
      Cell.glassBlock defaultRefractiveIndices := by
  unfold cellAt corridorGrid corridorSt
  obtain ⟨m, hm⟩ : ∃ m : ℕ, k = (m : ℤ) + 2 := ⟨(k - 2).toNat, by omega⟩
  subst hm
  have h2 : ((m : ℤ) + 2).toNat = m + 2 := by omega
  simp only [Int.toNat_zero, List.getD_cons_zero, h2, List.getD_cons_succ]
  exact getD_replicate _ _ 50 m (by omega)

/-- Cell `1` of the corridor is empty. -/
theorem corridor_cellAt_empty (s : ℝ) (c : ℕ) (path : List (ℝ × ℝ)) :
    cellAt corridorGrid (corridorSt s 1 c path) = Cell.empty := by
  unfold cellAt corridorGrid corridorSt
  simp only [Int.toNat_zero, List.getD_cons_zero, Int.toNat_one,
    List.getD_cons_succ]

/-- Entering a glass block of index `3/2` eastward at normal incidence on
the west face: the ray crosses undeviated, producing the entry segment and
the east-face exit segment. -/
theorem glass_normal_east :
    glassBlockCellInteract defaultRefractiveIndices (-(1 / 2), 0) (1, 0)
        (-1, 0) (some "red") =
      ([⟨(-(1 / 2), 0), ((1 : ℝ), (0 : ℝ))⟩,
        ⟨(1 / 2, 0), ((1 : ℝ), (0 : ℝ))⟩], false) := by
  have hu : isUnit ((-1 : ℝ), (0 : ℝ)) := by unfold isUnit; norm_num
  have hentry : refract ((1 : ℝ), (0 : ℝ)) (-1, 0) 1 (3 / 2) =
      ((1, 0), false) := by
    have h := refract_normal_incidence ((1 : ℝ), (0 : ℝ)) (-1, 0) 1 (3 / 2)
      (by norm_num) hu
    simpa using h
  have hexit : refract ((1 : ℝ), (0 : ℝ)) (-1, 0) (3 / 2) 1 =
      ((1, 0), false) := by
    have h := refract_normal_incidence ((1 : ℝ), (0 : ℝ)) (-1, 0) (3 / 2) 1
      (by norm_num) hu
    simpa using h
  have hred : defaultRefractiveIndices (some "red") = 3 / 2 := by
    unfold defaultRefractiveIndices
    norm_num
  unfold glassBlockCellInteract
  rw [hred]
  norm_num [hentry]
  rw [show (100 : ℕ) = 99 + 1 from rfl]
  unfold glassBounceLoop
  simp only [glassAxisT, glassExitT, glassExitNormal, jsign]
  norm_num [hexit]

/-- One tracer iteration through a corridor glass cell `k ∈ [2, 50]`: two
counted segments, the cell index advances east by one. -/
theorem corridor_glass_step (s : ℝ) (k : ℤ) (hk1 : 2 ≤ k) (hk2 : k ≤ 50)
    (c : ℕ) (hc : c < 100) (path : List (ℝ × ℝ)) (fuel : ℕ) :
    trackLoop corridorGrid (some "red") (fuel + 1) (corridorSt s k c path) =
      trackLoop corridorGrid (some "red") fuel
        (corridorSt ((k : ℝ) + 1) (k + 1) (c + 2)
          (path ++ [((k : ℝ), 1 / 2), ((k : ℝ) + 1, 1 / 2)])) := by
  have hcellAt := corridor_cellAt_glass s k hk1 (by omega) c path
  have hlocal : localPos (corridorSt s k c path) = (-(1 / 2), 0) := by
    unfold localPos corridorSt
    norm_num
  have hres : cellInteract (cellAt corridorGrid (corridorSt s k c path))
      (localPos (corridorSt s k c path))
      ((corridorSt s k c path).dx, (corridorSt s k c path).dy)
      ((corridorSt s k c path).nx, (corridorSt s k c path).ny) (some "red") =
      ([⟨(-(1 / 2), 0), ((1 : ℝ), (0 : ℝ))⟩,
        ⟨(1 / 2, 0), ((1 : ℝ), (0 : ℝ))⟩], false) := by
    rw [hcellAt, hlocal]
    simp only [corridorSt]
    simp only [cellInteract]
    exact glass_normal_east
  have happ : applySegs (corridorSt s k c path)
      [⟨(-(1 / 2), 0), ((1 : ℝ), (0 : ℝ))⟩,
       ⟨(1 / 2, 0), ((1 : ℝ), (0 : ℝ))⟩] =
      { sx := (k : ℝ) + 1, sy := 1 / 2, x := (k : ℝ), y := 1 / 2,
        dx := 1, dy := 0, cx := k, cy := 0, nx := -1, ny := 0,
        interactionCount := c + 2,
        path := path ++ [((k : ℝ), 1 / 2), ((k : ℝ) + 1, 1 / 2)] } := by
    simp only [applySegs, List.foldl_cons, List.foldl_nil, corridorSt]
    ext : 1 <;> (try simp) <;> (try norm_num) <;> (try ring)
  have hdda : ddaStep
      { sx := (k : ℝ) + 1, sy := 1 / 2, x := (k : ℝ), y := 1 / 2,
        dx := 1, dy := 0, cx := k, cy := 0, nx := -1, ny := 0,
        interactionCount := c + 2,
        path := path ++ [((k : ℝ), 1 / 2), ((k : ℝ) + 1, 1 / 2)] } =
      corridorSt ((k : ℝ) + 1) (k + 1) (c + 2)
        (path ++ [((k : ℝ), 1 / 2), ((k : ℝ) + 1, 1 / 2)]) := by
    unfold ddaStep corridorSt
    simp only [intSign, jsign, jsLtInf]
    norm_num
    all_goals ((try ext : 1) <;> (try push_cast) <;> (try norm_num) <;> (try ring))
  simp only [trackLoop]
  rw [if_neg (show ¬ MAX_INTERACTIONS ≤ (corridorSt s k c path).interactionCount by
    simp only [corridorSt]
    unfold MAX_INTERACTIONS
    omega)]
  rw [hres]
  dsimp only
  rw [if_neg Bool.false_ne_true]
  rw [happ, hdda]
  have hbound : ¬ ((corridorSt ((k : ℝ) + 1) (k + 1) (c + 2)
        (path ++ [((k : ℝ), 1 / 2), ((k : ℝ) + 1, 1 / 2)])).cx < 0 ∨
      (gridWidth corridorGrid : ℤ) ≤ (corridorSt ((k : ℝ) + 1) (k + 1) (c + 2)
        (path ++ [((k : ℝ), 1 / 2), ((k : ℝ) + 1, 1 / 2)])).cx ∨
      (corridorSt ((k : ℝ) + 1) (k + 1) (c + 2)
        (path ++ [((k : ℝ), 1 / 2), ((k : ℝ) + 1, 1 / 2)])).cy < 0 ∨
      (gridHeight corridorGrid : ℤ) ≤ (corridorSt ((k : ℝ) + 1) (k + 1) (c + 2)
        (path ++ [((k : ℝ), 1 / 2), ((k : ℝ) + 1, 1 / 2)])).cy) := by
    simp only [corridorSt, corridor_width, corridor_height]
    push_neg
    refine ⟨by omega, by omega, by omega, by omega⟩
  rw [if_neg hbound]

/-- The tracer iteration through the corridor's empty cell `1`: no
segments, the cell index advances east by one, the segment base stays. -/
theorem corridor_empty_step (s : ℝ) (c : ℕ) (hc : c < 100)
    (path : List (ℝ × ℝ)) (fuel : ℕ) :
    trackLoop corridorGrid (some "red") (fuel + 1) (corridorSt s 1 c path) =
      trackLoop corridorGrid (some "red") fuel (corridorSt s 2 c path) := by
  have hcellAt := corridor_cellAt_empty s c path
  have hres : cellInteract (cellAt corridorGrid (corridorSt s 1 c path))
      (localPos (corridorSt s 1 c path))
      ((corridorSt s 1 c path).dx, (corridorSt s 1 c path).dy)
      ((corridorSt s 1 c path).nx, (corridorSt s 1 c path).ny) (some "red") =
      ([], false) := by
    rw [hcellAt]
    rfl
  have hdda : ddaStep (corridorSt s 1 c path) = corridorSt s 2 c path := by
    unfold ddaStep corridorSt
    simp only [intSign, jsign, jsLtInf]
    norm_num
    all_goals ((try ext : 1) <;> (try push_cast) <;> (try norm_num) <;> (try ring))
  simp only [trackLoop]
  rw [if_neg (show ¬ MAX_INTERACTIONS ≤ (corridorSt s 1 c path).interactionCount by
    simp only [corridorSt]
    unfold MAX_INTERACTIONS
    omega)]
  rw [hres]
  dsimp only
  rw [if_neg Bool.false_ne_true]
  rw [show applySegs (corridorSt s 1 c path) [] = corridorSt s 1 c path from rfl]
  rw [hdda]
  have hbound : ¬ ((corridorSt s 2 c path).cx < 0 ∨
      (gridWidth corridorGrid : ℤ) ≤ (corridorSt s 2 c path).cx ∨
      (corridorSt s 2 c path).cy < 0 ∨
      (gridHeight corridorGrid : ℤ) ≤ (corridorSt s 2 c path).cy) := by
    simp only [corridorSt, corridor_width, corridor_height]
    push_neg
    refine ⟨by omega, by omega, by omega, by omega⟩
  rw [if_neg hbound]

/-- The tracer iteration through the last corridor glass cell `51`: two
further counted segments, then the DDA step leaves the 52-wide grid and the
loop stops with `exited`. -/
theorem corridor_last (s : ℝ) (c : ℕ) (hc : c < 100) (path : List (ℝ × ℝ))
    (fuel : ℕ) :
    (trackLoop corridorGrid (some "red") (fuel + 1)
        (corridorSt s 51 c path)).2 = TraceHalt.exited ∧
    (trackLoop corridorGrid (some "red") (fuel + 1)
        (corridorSt s 51 c path)).1.interactionCount = c + 2 := by
  have hcellAt := corridor_cellAt_glass s 51 (by norm_num) (by norm_num) c path
  have hlocal : localPos (corridorSt s 51 c path) = (-(1 / 2), 0) := by
    unfold localPos corridorSt
    norm_num
  have hres : cellInteract (cellAt corridorGrid (corridorSt s 51 c path))
      (localPos (corridorSt s 51 c path))
      ((corridorSt s 51 c path).dx, (corridorSt s 51 c path).dy)
      ((corridorSt s 51 c path).nx, (corridorSt s 51 c path).ny) (some "red") =
      ([⟨(-(1 / 2), 0), ((1 : ℝ), (0 : ℝ))⟩,
        ⟨(1 / 2, 0), ((1 : ℝ), (0 : ℝ))⟩], false) := by
    rw [hcellAt, hlocal]
    simp only [corridorSt]
    simp only [cellInteract]
    exact glass_normal_east
  have happ : applySegs (corridorSt s 51 c path)
      [⟨(-(1 / 2), 0), ((1 : ℝ), (0 : ℝ))⟩,
       ⟨(1 / 2, 0), ((1 : ℝ), (0 : ℝ))⟩] =
      { sx := (51 : ℝ) + 1, sy := 1 / 2, x := (51 : ℝ), y := 1 / 2,
        dx := 1, dy := 0, cx := 51, cy := 0, nx := -1, ny := 0,
        interactionCount := c + 2,
        path := path ++ [((51 : ℝ), 1 / 2), ((51 : ℝ) + 1, 1 / 2)] } := by
    simp only [applySegs, List.foldl_cons, List.foldl_nil, corridorSt]
    ext : 1 <;> (try simp) <;> (try norm_num) <;> (try ring)
  have hdda : ddaStep
      { sx := (51 : ℝ) + 1, sy := 1 / 2, x := (51 : ℝ), y := 1 / 2,
        dx := 1, dy := 0, cx := 51, cy := 0, nx := -1, ny := 0,
        interactionCount := c + 2,
        path := path ++ [((51 : ℝ), 1 / 2), ((51 : ℝ) + 1, 1 / 2)] } =
      corridorSt ((51 : ℝ) + 1) 52 (c + 2)
        (path ++ [((51 : ℝ), 1 / 2), ((51 : ℝ) + 1, 1 / 2)]) := by
    unfold ddaStep corridorSt
    simp only [intSign, jsign, jsLtInf]
    norm_num
    all_goals ((try ext : 1) <;> (try push_cast) <;> (try norm_num) <;> (try ring))
  have hgoal : trackLoop corridorGrid (some "red") (fuel + 1)
      (corridorSt s 51 c path) =
      ({ corridorSt ((51 : ℝ) + 1) 52 (c + 2)
          (path ++ [((51 : ℝ), 1 / 2), ((51 : ℝ) + 1, 1 / 2)]) with
        path := (corridorSt ((51 : ℝ) + 1) 52 (c + 2)
          (path ++ [((51 : ℝ), 1 / 2), ((51 : ℝ) + 1, 1 / 2)])).path ++
            [((corridorSt ((51 : ℝ) + 1) 52 (c + 2)
              (path ++ [((51 : ℝ), 1 / 2), ((51 : ℝ) + 1, 1 / 2)])).x,
              (corridorSt ((51 : ℝ) + 1) 52 (c + 2)
              (path ++ [((51 : ℝ), 1 / 2), ((51 : ℝ) + 1, 1 / 2)])).y)] },
        TraceHalt.exited) := by
    simp only [trackLoop]
    rw [if_neg (show ¬ MAX_INTERACTIONS ≤
        (corridorSt s 51 c path).interactionCount by
      simp only [corridorSt]
      unfold MAX_INTERACTIONS
      omega)]
    rw [hres]
    dsimp only
    rw [if_neg Bool.false_ne_true]
    rw [happ, hdda]
    rw [if_pos (show (corridorSt ((51 : ℝ) + 1) 52 (c + 2)
        (path ++ [((51 : ℝ), 1 / 2), ((51 : ℝ) + 1, 1 / 2)])).cx < 0 ∨
        (gridWidth corridorGrid : ℤ) ≤ (corridorSt ((51 : ℝ) + 1) 52 (c + 2)
          (path ++ [((51 : ℝ), 1 / 2), ((51 : ℝ) + 1, 1 / 2)])).cx ∨
        (corridorSt ((51 : ℝ) + 1) 52 (c + 2)
          (path ++ [((51 : ℝ), 1 / 2), ((51 : ℝ) + 1, 1 / 2)])).cy < 0 ∨
        (gridHeight corridorGrid : ℤ) ≤ (corridorSt ((51 : ℝ) + 1) 52 (c + 2)
          (path ++ [((51 : ℝ), 1 / 2), ((51 : ℝ) + 1, 1 / 2)])).cy by
      refine Or.inr (Or.inl ?_)
      simp only [corridorSt, corridor_width]
      omega)]
  rw [hgoal]
  exact ⟨rfl, rfl⟩

/-- Running the tracer down the glass corridor from cell `51 - n`: the
beam exits the grid with a final interaction count of 101. -/
theorem corridor_run :
    ∀ (n : ℕ), n ≤ 49 → ∀ (k : ℤ), k = 51 - (n : ℤ) → ∀ (c : ℕ),
      c + 2 * n = 99 → ∀ (s : ℝ) (fuel : ℕ), n + 1 ≤ fuel →
      ∀ (path : List (ℝ × ℝ)),
      (trackLoop corridorGrid (some "red") fuel (corridorSt s k c path)).2 =
        TraceHalt.exited ∧
      (trackLoop corridorGrid (some "red") fuel
        (corridorSt s k c path)).1.interactionCount = 101 := by
  intro n
  induction n with
  | zero =>
    intro _ k hk c hc s fuel hfuel path
    have hk51 : k = 51 := by omega
    have hc99 : c = 99 := by omega
    subst hk51
    subst hc99
    cases fuel with
    | zero => omega
    | succ f =>
      obtain ⟨h1, h2⟩ := corridor_last s 99 (by norm_num) path f
      exact ⟨h1, by rw [h2]⟩
  | succ n ih =>
    intro hn k hk c hc s fuel hfuel path
    cases fuel with
    | zero => omega
    | succ f =>
      rw [corridor_glass_step s k (by omega) (by omega) c (by omega) path f]
      exact ih (by omega) (k + 1) (by omega) (c + 2) (by omega)
        ((k : ℝ) + 1) f (by omega) _

/-- The tracer state after the first corridor iteration (through the empty
cell, heading west at the mirror): the crossing point sits on the west face
of cell `0`. -/
noncomputable def corridorMid : TraceState :=
  { sx := 3 / 2, sy := 1 / 2, x := 1, y := 1 / 2, dx := -1, dy := 0,
    cx := 0, cy := 0, nx := 1, ny := 0, interactionCount := 0,
    path := [(3 / 2, 1 / 2)] }

/-- The first corridor iteration: the initial beam crosses the empty cell
westward into the mirror cell. -/
theorem corridor_iter1 (fuel : ℕ) :
    trackLoop corridorGrid (some "red") (fuel + 1) (initState corridorBeam) =
      trackLoop corridorGrid (some "red") fuel corridorMid := by
  have hdda : ddaStep (initState corridorBeam) = corridorMid := by
    unfold ddaStep initState corridorBeam corridorMid
    simp only [intSign, jsign, jsLtInf]
    norm_num
    all_goals ((try ext : 1) <;> (try push_cast) <;> (try norm_num) <;> (try ring))
  simp only [trackLoop]
  rw [if_neg (show ¬ MAX_INTERACTIONS ≤
      (initState corridorBeam).interactionCount by
    norm_num [initState, corridorBeam, MAX_INTERACTIONS])]
  rw [show cellInteract (cellAt corridorGrid (initState corridorBeam))
      (localPos (initState corridorBeam))
      ((initState corridorBeam).dx, (initState corridorBeam).dy)
      ((initState corridorBeam).nx, (initState corridorBeam).ny) (some "red") =
      (([] : List Seg), false) from rfl]
  dsimp only
  rw [if_neg Bool.false_ne_true]
  rw [show applySegs (initState corridorBeam) [] = initState corridorBeam
    from rfl]
  rw [hdda]
  have hbound : ¬ (corridorMid.cx < 0 ∨
      (gridWidth corridorGrid : ℤ) ≤ corridorMid.cx ∨ corridorMid.cy < 0 ∨
      (gridHeight corridorGrid : ℤ) ≤ corridorMid.cy) := by
    simp only [corridorMid, corridor_width, corridor_height]
    push_neg
    refine ⟨by omega, by omega, by omega, by omega⟩
  rw [if_neg hbound]

/-- The second corridor iteration: the mirror reflects the beam eastward
and the DDA step returns it to cell `1` with one counted segment. -/
theorem corridor_iter2 (fuel : ℕ) :
    trackLoop corridorGrid (some "red") (fuel + 1) corridorMid =
      trackLoop corridorGrid (some "red") fuel
        (corridorSt 1 1 1 [(3 / 2, 1 / 2), (1, 1 / 2)]) := by
  have hres : cellInteract (cellAt corridorGrid corridorMid)
      (localPos corridorMid) (corridorMid.dx, corridorMid.dy)
      (corridorMid.nx, corridorMid.ny) (some "red") =
      ([⟨(1 / 2, 0), ((1 : ℝ), (0 : ℝ))⟩], false) := by
    rw [show cellAt corridorGrid corridorMid = Cell.fixedMirror from rfl]
    simp only [cellInteract, fixedMirrorCellInteract]
    unfold localPos reflect dot corridorMid
    norm_num
  have happ : applySegs corridorMid [⟨(1 / 2, 0), ((1 : ℝ), (0 : ℝ))⟩] =
      { sx := 1, sy := 1 / 2, x := 1, y := 1 / 2, dx := 1, dy := 0,
        cx := 0, cy := 0, nx := 1, ny := 0, interactionCount := 1,
        path := [(3 / 2, 1 / 2), (1, 1 / 2)] } := by
    simp only [applySegs, List.foldl_cons, List.foldl_nil, corridorMid]
    all_goals ((try ext : 1) <;> (try push_cast) <;> (try norm_num) <;> (try ring))
  have hdda : ddaStep
      { sx := (1 : ℝ), sy := 1 / 2, x := 1, y := 1 / 2, dx := 1, dy := 0,
        cx := 0, cy := 0, nx := 1, ny := 0, interactionCount := 1,
        path := [(3 / 2, 1 / 2), (1, 1 / 2)] } =
      corridorSt 1 1 1 [(3 / 2, 1 / 2), (1, 1 / 2)] := by
    unfold ddaStep corridorSt
    simp only [intSign, jsign, jsLtInf]
    norm_num
    all_goals ((try ext : 1) <;> (try push_cast) <;> (try norm_num) <;> (try ring))
  simp only [trackLoop]
  rw [if_neg (show ¬ MAX_INTERACTIONS ≤ corridorMid.interactionCount by
    norm_num [corridorMid, MAX_INTERACTIONS])]
  rw [hres]
  dsimp only
  rw [if_neg Bool.false_ne_true]
  rw [happ, hdda]
  have hbound : ¬ ((corridorSt 1 1 1 [(3 / 2, 1 / 2), (1, 1 / 2)]).cx < 0 ∨
      (gridWidth corridorGrid : ℤ) ≤
        (corridorSt 1 1 1 [(3 / 2, 1 / 2), (1, 1 / 2)]).cx ∨
      (corridorSt 1 1 1 [(3 / 2, 1 / 2), (1, 1 / 2)]).cy < 0 ∨
      (gridHeight corridorGrid : ℤ) ≤
        (corridorSt 1 1 1 [(3 / 2, 1 / 2), (1, 1 / 2)]).cy) := by
    simp only [corridorSt, corridor_width, corridor_height]
    push_neg
    refine ⟨by omega, by omega, by omega, by omega⟩
  rw [if_neg hbound]

/-- Counterexample for C2's bound on the counted interactions: in the
corridor level, the mirror-reflected red beam passes 50 glass blocks, each
adding two counted segments; the final interaction count is 101, exceeding
`MAX_INTERACTIONS = 100` (the guard only checks the count *before* each
cell interaction). -/
theorem C2_counterexample :
    (trackLoop corridorGrid (some "red") 60 (initState corridorBeam)).2 =
      TraceHalt.exited ∧
    MAX_INTERACTIONS <
      (trackLoop corridorGrid (some "red") 60
        (initState corridorBeam)).1.interactionCount := by
  rw [show (60 : ℕ) = 59 + 1 from rfl, corridor_iter1 59]
  rw [show (59 : ℕ) = 58 + 1 from rfl, corridor_iter2 58]
  rw [show (58 : ℕ) = 57 + 1 from rfl]
  rw [corridor_empty_step 1 1 (by norm_num) [(3 / 2, 1 / 2), (1, 1 / 2)] 57]
  have h4 := corridor_run 49 (by norm_num) 2 (by norm_num) 1 (by norm_num)
    1 57 (by norm_num) [(3 / 2, 1 / 2), (1, 1 / 2)]
  refine ⟨h4.1, ?_⟩
  rw [h4.2]
  norm_num [MAX_INTERACTIONS]

end Shooter
